import Mathlib

/-!
# gh-dungeons core: shallow embedding and verification

This file embeds the dungeon-generation and turn-resolution core of the
gh-dungeons roguelike (Go) into Lean 4 and proves the specification claims
about it.

Embedding conventions:
* Go `int` becomes `Int`; all machine arithmetic in the game stays far from
  overflow, so no wrap-around modelling is needed.
* The 2D tile / boolean grids (`[][]Tile`, `[][]bool`) become functions
  `Int → Int → _` indexed row-major as `grid y x`, matching Go `Tiles[y][x]`.
  All writes in the source are bounds-guarded (or proved in-bounds), so the
  total-function model is observationally faithful.
* `math/rand.Rand` is not part of the repository; per the spec (§4.1,
  "single linear-congruential-style or equivalent seeded generator") it is
  modelled abstractly as a stream of naturals with a cursor, see `Rng`.
* Go `float32` / `float64` arithmetic (the Taylor-series trig in
  `state.go` and aspect-ratio tests) is modelled with exact rationals `Rat`;
  every claim proved here is insensitive to rounding in those computations.
* Fallible code paths (nil-pointer dereferences on `gs.Player`) are modelled
  with `Option`: `none` is a Go panic.

Source files: `game/dungeon.go`, `game/entity.go`, `game/state.go`
(the current `state.go`, whose text is reproduced in
`.github/copilot-instructions.md`; the `unnamed/part_004` copy is an earlier
revision that the in-repo tests no longer compile against), `game/scanner.go`.
-/

/-- Go constant `MinRoomSize = 6` (dungeon.go). -/
def MinRoomSize : Int := 6

/-- Go constant `MaxRoomSize = 15` (dungeon.go). -/
def MaxRoomSize : Int := 15

/-- Go constant `VisionRadius = 7` (state.go). -/
def VisionRadius : Nat := 7

/-- Model of Go `math/rand.Rand`: an abstract stream of naturals together
with a cursor; each draw consumes one stream element.  Modelled from the
spec: the `math/rand` library source is not part of this repository; §4.1
specifies only "a single linear-congruential-style or equivalent seeded
generator" producing bounded integer draws, float draws and a shuffle. -/
structure Rng where
  stream : Nat → Nat
  pos : Nat

/-- Go `rng.Intn(n)`: a uniform draw in `[0, n)`.  All call sites in the
game pass `n > 0` (Go panics otherwise); for `n ≤ 0` the model returns the
raw stream value, which no theorem relies on. -/
def Rng.intn (r : Rng) (n : Int) : Int × Rng :=
  ((r.stream r.pos % n.toNat : Nat), { r with pos := r.pos + 1 })

/-- Go `rng.Float32()`: modelled as a dyadic rational `k / 2^24` where
`k < 2^24` is drawn from the stream; the game only compares the result
against the constants 0.5 and 0.4, and both comparisons are exact in this
representation. -/
def Rng.float32 (r : Rng) : Nat × Rng :=
  (r.stream r.pos % 16777216, { r with pos := r.pos + 1 })

/-- `f > 0.5` for a float32 draw `f = k / 2^24`. -/
def floatGtHalf (k : Nat) : Bool := 8388608 < k

/-- `f > 0.4` for a float32 draw `f = k / 2^24` (0.4 = 2/5, so
`k / 2^24 > 2/5 ↔ 5k > 2^25`). -/
def floatGtTwoFifths (k : Nat) : Bool := 33554432 < 5 * k

/-- Seeded construction `rand.New(rand.NewSource(seed))`.  Modelled from the
spec: the concrete seed-expansion of Go's generator is library code outside
the repository; §4.1 requires only that the stream be a pure function of the
seed, which this linear-congruential-style expansion is. -/
def mkRng (seed : Int) : Rng :=
  { stream := fun n => (seed.natAbs + 1) * 6364136223846793005 ^ (n + 1) % 9223372036854775808
    pos := 0 }

/-- `Tile` (dungeon.go): `TileWall | TileFloor | TileDoor`. -/
inductive Tile where
  | wall
  | floor
  | door
deriving DecidableEq, Repr

/-- `Room` (dungeon.go): axis-aligned rectangle. -/
structure Room where
  X : Int
  Y : Int
  W : Int
  H : Int
deriving DecidableEq, Repr

/-- `Room.Center` (dungeon.go): `(r.X + r.W/2, r.Y + r.H/2)` with Go integer
division (identical to `Int./` on the nonnegative extents that occur). -/
def Room.center (r : Room) : Int × Int := (r.X + r.W / 2, r.Y + r.H / 2)

/-- `Room.Contains` (dungeon.go). -/
def Room.containsPt (r : Room) (x y : Int) : Bool :=
  r.X ≤ x && x < r.X + r.W && r.Y ≤ y && y < r.Y + r.H

/-- `BSPNode` (dungeon.go).  In Go the node carries optional `Left`/`Right`
child pointers and an optional `Room`; `Split` always sets both children or
neither, and `CreateRooms` attaches rooms to childless nodes only, so the
generated trees are exactly captured by this inductive (a `branch` never
carries a room in any tree the generator produces). -/
inductive BSPNode where
  | leaf (x y w h : Int) (room : Option Room)
  | branch (x y w h : Int) (left right : BSPNode)
deriving Repr

/-- The split-offset draw of `(*BSPNode).Split` (dungeon.go):
`Intn(maxSize-MinRoomSize) + MinRoomSize`. -/
def splitOffset (maxSize : Int) (rng : Rng) : Int × Rng :=
  ((rng.intn (maxSize - MinRoomSize)).1 + MinRoomSize,
   (rng.intn (maxSize - MinRoomSize)).2)

/-- `(*BSPNode).Split` (dungeon.go): recursively split the rectangle.
Mirrors the Go draw order exactly: the `Float32` direction draw is consumed
before the aspect-ratio override and before the `maxSize` early return.
The float comparisons `float32(W)/float32(H) >= 1.25` are exact integer
comparisons `4*W ≥ 5*H` for the dimensions that occur. -/
def splitNode (depth : Nat) (x y w h : Int) (rng : Rng) : BSPNode × Rng :=
  match depth with
  | 0 => (.leaf x y w h none, rng)
  | d + 1 =>
    let fr := rng.float32
    let horiz0 := floatGtHalf fr.1
    let horiz : Bool :=
      if 5 * h ≤ 4 * w then false
      else if 5 * w ≤ 4 * h then true
      else horiz0
    let maxSize := if horiz then h - MinRoomSize else w - MinRoomSize
    if maxSize ≤ MinRoomSize then (.leaf x y w h none, fr.2)
    else
      let sr := splitOffset maxSize fr.2
      if horiz then
        let l := splitNode d x y w sr.1 sr.2
        let r := splitNode d x (y + sr.1) w (h - sr.1) l.2
        (.branch x y w h l.1 r.1, r.2)
      else
        let l := splitNode d x y sr.1 h sr.2
        let r := splitNode d (x + sr.1) y (w - sr.1) h l.2
        (.branch x y w h l.1 r.1, r.2)

/-- The `maxW`/`maxH` clamp of `(*BSPNode).CreateRooms` (dungeon.go):
`min(MaxRoomSize, extent-2)`, raised to `MinRoomSize` when below it. -/
def craMaxDim (extent : Int) : Int :=
  if min MaxRoomSize (extent - 2) < MinRoomSize then MinRoomSize
  else min MaxRoomSize (extent - 2)

/-- The `roomW`/`roomH` draw of `(*BSPNode).CreateRooms` (dungeon.go):
`Intn(maxD-MinRoomSize+1)+MinRoomSize` when there is slack, else
`MinRoomSize`; the draw is consumed only in the first case, as in Go. -/
def crDim (maxD : Int) (rng : Rng) : Int × Rng :=
  if MinRoomSize < maxD then
    ((rng.intn (maxD - MinRoomSize + 1)).1 + MinRoomSize,
     (rng.intn (maxD - MinRoomSize + 1)).2)
  else (MinRoomSize, rng)

/-- The `roomX`/`roomY` draw of `(*BSPNode).CreateRooms` (dungeon.go):
`base + Intn(extent-roomD-1) + 1` when there is slack, else `base + 1`;
the draw is consumed only in the first case, as in Go. -/
def crPos (base extent roomD : Int) (rng : Rng) : Int × Rng :=
  if 1 < extent - roomD - 1 then
    (base + (rng.intn (extent - roomD - 1)).1 + 1, (rng.intn (extent - roomD - 1)).2)
  else (base + 1, rng)

/-- The room-dimension/position draws of `(*BSPNode).CreateRooms`
(dungeon.go) for one leaf of extent `w × h` at `(x, y)`: width, height,
x then y, threading the generator in Go's order. -/
def createRoomAt (x y w h : Int) (rng : Rng) : Room × Rng :=
  let rw := crDim (craMaxDim w) rng
  let rh := crDim (craMaxDim h) rw.2
  let rx := crPos x w rw.1 rh.2
  let ry := crPos y h rh.1 rx.2
  ({ X := rx.1, Y := ry.1, W := rw.1, H := rh.1 }, ry.2)

/-- `(*BSPNode).CreateRooms` (dungeon.go): left subtree first, then right;
a leaf gets a room only when both extents are at least `MinRoomSize + 2`. -/
def createRooms : BSPNode → Rng → BSPNode × Rng
  | .branch x y w h l r, rng =>
    let lr := createRooms l rng
    let rr := createRooms r lr.2
    (.branch x y w h lr.1 rr.1, rr.2)
  | .leaf x y w h _, rng =>
    if w < MinRoomSize + 2 ∨ h < MinRoomSize + 2 then (.leaf x y w h none, rng)
    else
      let cr := createRoomAt x y w h rng
      (.leaf x y w h (some cr.1), cr.2)

/-- `(*BSPNode).GetRooms` (dungeon.go): collect rooms in traversal order. -/
def getRooms : BSPNode → List Room
  | .leaf _ _ _ _ (some r) => [r]
  | .leaf _ _ _ _ none => []
  | .branch _ _ _ _ l r => getRooms l ++ getRooms r

/-- `(*BSPNode).GetRoom` (dungeon.go): first room found, left child first. -/
def getRoom : BSPNode → Option Room
  | .leaf _ _ _ _ r => r
  | .branch _ _ _ _ l r =>
    match getRoom l with
    | some room => some room
    | none => getRoom r

/-- `CodeFile` (scanner.go). -/
structure CodeFile where
  Path : String
  Lines : List String
  SHA : String
deriving DecidableEq, Repr

/-- `Dungeon` (dungeon.go).  `Tiles` is the row-major grid, read as
`Tiles y x`. -/
structure Dungeon where
  Width : Int
  Height : Int
  Tiles : Int → Int → Tile
  Rooms : List Room
  CodeFile : Option CodeFile

/-- Bounds-guarded write of a Floor tile, the body of the carve loops in
`carveHorizontalCorridor` / `carveVerticalCorridor` / the room-carving loop
of `GenerateDungeon` (all three use the identical
`y >= 0 && y < d.Height && x >= 0 && x < d.Width` guard). -/
def Dungeon.setFloor (d : Dungeon) (x y : Int) : Dungeon :=
  if 0 ≤ y ∧ y < d.Height ∧ 0 ≤ x ∧ x < d.Width then
    { d with Tiles := fun b a => if b = y ∧ a = x then .floor else d.Tiles b a }
  else d

/-- `(*Dungeon).carveHorizontalCorridor` (dungeon.go): swap so `x1 ≤ x2`,
then carve `[x1, x2]` at row `y`. -/
def carveH (d : Dungeon) (x1 x2 y : Int) : Dungeon :=
  let lo := min x1 x2
  let hi := max x1 x2
  (List.range (hi - lo + 1).toNat).foldl (fun d' (i : Nat) => d'.setFloor (lo + (i : Int)) y) d

/-- `(*Dungeon).carveVerticalCorridor` (dungeon.go). -/
def carveV (d : Dungeon) (y1 y2 x : Int) : Dungeon :=
  let lo := min y1 y2
  let hi := max y1 y2
  (List.range (hi - lo + 1).toNat).foldl (fun d' (i : Nat) => d'.setFloor x (lo + (i : Int))) d

/-- The room-carving loop of `GenerateDungeon` (dungeon.go lines 183-191):
every cell of every room becomes Floor (with the same bounds guard). -/
def carveRoom (d : Dungeon) (r : Room) : Dungeon :=
  (List.range r.H.toNat).foldl
    (fun d' (j : Nat) =>
      (List.range r.W.toNat).foldl
        (fun d'' (i : Nat) => d''.setFloor (r.X + (i : Int)) (r.Y + (j : Int))) d')
    d

/-- `connectRooms` (dungeon.go): post-order traversal; an internal node
connects the representative rooms of its two subtrees by an L-shaped
corridor; the `Float32` orientation draw is consumed only when both
representatives exist, as in Go. -/
def connectRooms : BSPNode → Dungeon → Rng → Dungeon × Rng
  | .leaf _ _ _ _ _, d, rng => (d, rng)
  | .branch _ _ _ _ l r, d, rng =>
    let dl := connectRooms l d rng
    let dr := connectRooms r dl.1 dl.2
    match getRoom l, getRoom r with
    | some lr, some rr =>
      let c1 := lr.center
      let c2 := rr.center
      let fr := dr.2.float32
      if floatGtHalf fr.1 then
        (carveV (carveH dr.1 c1.1 c2.1 c1.2) c1.2 c2.2 c2.1, fr.2)
      else
        (carveH (carveV dr.1 c1.2 c2.2 c1.1) c1.1 c2.1 c2.2, fr.2)
    | _, _ => (dr.1, dr.2)

/-- `GenerateDungeon` (dungeon.go): all-wall grid, BSP split to depth 4,
room creation, room carving, corridor carving. -/
def GenerateDungeon (width height : Int) (rng : Rng) (codeFile : Option CodeFile) :
    Dungeon × Rng :=
  let t0 := splitNode 4 0 0 width height rng
  let t1 := createRooms t0.1 t0.2
  let rooms := getRooms t1.1
  let d0 : Dungeon :=
    { Width := width, Height := height, Tiles := fun _ _ => .wall
      Rooms := rooms, CodeFile := codeFile }
  let d1 := rooms.foldl carveRoom d0
  connectRooms t1.1 d1 t1.2

/-- `(*Dungeon).IsWalkable` (dungeon.go). -/
def Dungeon.IsWalkable (d : Dungeon) (x y : Int) : Bool :=
  if x < 0 ∨ d.Width ≤ x ∨ y < 0 ∨ d.Height ≤ y then false
  else d.Tiles y x ≠ .wall

/-- `(*Dungeon).PlaceDoor` (dungeon.go): with no rooms, fall back to the
grid center without writing a tile; otherwise pick an interior cell of the
last room (margin 1), write a Door tile (Go indexes the grid directly here;
generated rooms lie inside the grid) and return the coordinates. -/
def PlaceDoor (d : Dungeon) (rng : Rng) : (Int × Int) × Dungeon × Rng :=
  match d.Rooms.getLast? with
  | none => ((d.Width / 2, d.Height / 2), d, rng)
  | some room =>
    let xr := rng.intn (room.W - 2)
    let x := room.X + xr.1 + 1
    let yr := xr.2.intn (room.H - 2)
    let y := room.Y + yr.1 + 1
    ((x, y),
     { d with Tiles := fun b a => if b = y ∧ a = x then .door else d.Tiles b a },
     yr.2)

/-- `EntityType` (entity.go). -/
inductive EntityType where
  | player
  | bug
  | scopeCreep
  | potion
deriving DecidableEq, Repr

/-- `Entity` (entity.go). -/
structure Entity where
  /-- Go field `Type` (capitalized there; `Type` is reserved in Lean). -/
  type : EntityType
  X : Int
  Y : Int
  HP : Int
  MaxHP : Int
  Damage : Int
  Symbol : Char
deriving DecidableEq, Repr

/-- `NewPlayer` (entity.go): 20 HP, 2 damage. -/
def NewPlayer (x y : Int) : Entity :=
  { type := .player, X := x, Y := y, HP := 20, MaxHP := 20, Damage := 2, Symbol := '@' }

/-- `NewBug` (entity.go): 1 HP, 1 damage. -/
def NewBug (x y : Int) : Entity :=
  { type := .bug, X := x, Y := y, HP := 1, MaxHP := 1, Damage := 1, Symbol := 'b' }

/-- `NewScopeCreep` (entity.go): 3 HP, 2 damage. -/
def NewScopeCreep (x y : Int) : Entity :=
  { type := .scopeCreep, X := x, Y := y, HP := 3, MaxHP := 3, Damage := 2, Symbol := 's' }

/-- `NewPotion` (entity.go); HP/MaxHP/Damage stay at their Go zero values. -/
def NewPotion (x y : Int) : Entity :=
  { type := .potion, X := x, Y := y, HP := 0, MaxHP := 0, Damage := 0, Symbol := '+' }

/-- `(*Entity).IsAlive` (entity.go): `HP > 0`. -/
def Entity.IsAlive (e : Entity) : Bool := 0 < e.HP

/-- `(*Entity).TakeDamage` (entity.go): subtract, clamp at 0. -/
def Entity.TakeDamage (e : Entity) (dmg : Int) : Entity :=
  let hp := e.HP - dmg
  { e with HP := if hp < 0 then 0 else hp }

/-- `(*Entity).Heal` (entity.go): add, clamp at MaxHP. -/
def Entity.Heal (e : Entity) (amount : Int) : Entity :=
  let hp := e.HP + amount
  { e with HP := if e.MaxHP < hp then e.MaxHP else hp }

/-- `(*Entity).IsAdjacent` (entity.go): Chebyshev distance ≤ 1 excluding
the same-tile case. -/
def Entity.IsAdjacent (e o : Entity) : Bool :=
  let dx := (e.X - o.X).natAbs
  let dy := (e.Y - o.Y).natAbs
  dx ≤ 1 && dy ≤ 1 && 0 < dx + dy

/-- `abs` (state.go). -/
def absInt (x : Int) : Int := if x < 0 then -x else x

/-- `mod2pi` (state.go): reduce into `(-π, π]` with the two subtraction
loops; Go floats are modelled as exact rationals, and the loops (which
terminate after at most a few steps on the angles that occur) get explicit
fuel. -/
def mod2piDown (fuel : Nat) (x : Rat) : Rat :=
  match fuel with
  | 0 => x
  | f + 1 => if 3.14159265 < x then mod2piDown f (x - 6.28318530718) else x

def mod2piUp (fuel : Nat) (x : Rat) : Rat :=
  match fuel with
  | 0 => x
  | f + 1 => if x < -3.14159265 then mod2piUp f (x + 6.28318530718) else x

def mod2pi (x : Rat) : Rat := mod2piUp 100 (mod2piDown 100 x)

/-- `cos` (state.go): the Taylor-series approximation, on rationals. -/
def cosApprox (rad : Rat) : Rat :=
  let r := mod2pi rad
  let x2 := r * r
  1 - x2 / 2 + x2 * x2 / 24 - x2 * x2 * x2 / 720

/-- `sin` (state.go): the Taylor-series approximation, on rationals. -/
def sinApprox (rad : Rat) : Rat :=
  let r := mod2pi rad
  let x2 := r * r
  r - r * x2 / 6 + r * x2 * x2 / 120

/-- Go `int(f)` for the `int(x + 0.5)` conversions in state.go: truncation
toward zero. -/
def ratToInt (q : Rat) : Int := if q < 0 then -((-q).floor) else q.floor

/-- The `tcell.Style` values the state machine writes: the default style
(via `SetMessage`) and the bold red-on-black damage style. -/
inductive MsgStyle where
  | default
  | redBold
deriving DecidableEq, Repr

/-- `MergeConflictLocation` (game.go); only stored by the core, never read
by it, so the payload is irrelevant to every claim. -/
structure MergeConflictLocation where
  Path : String
  Line : Int
deriving DecidableEq, Repr

/-- `GameState` (state.go, current revision).  Pointers become values or
`Option`s (`Player` is `none` exactly when the Go pointer is nil);
`Visible`/`Explored` are row-major boolean grids read as `grid y x`;
`MergeAffectedTiles map[int]bool` becomes its list of keys (inserted once
each); `RNG` is threaded explicitly. -/
structure GameState where
  Player : Option Entity
  Enemies : List Entity
  Potions : List Entity
  Dungeon : Dungeon
  Level : Int
  MaxLevel : Int
  DoorX : Int
  DoorY : Int
  Visible : Int → Int → Bool
  Explored : Int → Int → Bool
  GameOver : Bool
  Victory : Bool
  EnemiesKilled : Int
  Message : String
  MessageStyle : MsgStyle
  CodeFiles : List CodeFile
  RNG : Rng
  TermWidth : Int
  TermHeight : Int
  KonamiSequence : List String
  Invulnerable : Bool
  MoveCount : Int
  Username : String
  MergeConflictX : Int
  MergeConflictY : Int
  OnMergeConflict : Bool
  MergeConflictTriggered : Bool
  MergeConflictMovements : Int
  KilledBy : String
  MergeConflictSpread : List (Int × Int)
  ColorRotation : Int
  MergeConflict : Option MergeConflictLocation
  MergeMarkerX : Int
  MergeMarkerY : Int
  MergeAffectedTiles : List Int
  MergeAnimationStep : Int

/-- `(*GameState).SetMessage` (state.go): set the message with the default
style. -/
def GameState.setMessage (gs : GameState) (msg : String) : GameState :=
  { gs with Message := msg, MessageStyle := .default }

/-- Go constant `MergeConflictWarning` (state.go). -/
def MergeConflictWarning : String := "WARNING: MERGE CONFLICT DETECTED. TREAD CAREFULLY."

/-- `gs.Player.IsAlive()` as read by the state machine; Go would panic on a
nil player (all callers run with a player present). -/
def GameState.playerAlive (gs : GameState) : Bool :=
  match gs.Player with
  | some p => p.IsAlive
  | none => false

/-- The candidate draw of one `randomFloorTile` attempt (state.go): a room
index, then an x offset, then a y offset — three stream draws. -/
def rftCandidate (gs : GameState) (rng : Rng) : (Int × Int) × Rng :=
  let ri := rng.intn (gs.Dungeon.Rooms.length : Int)
  let room := gs.Dungeon.Rooms.getD ri.1.toNat ⟨0, 0, 0, 0⟩
  let xr := ri.2.intn room.W
  let yr := xr.2.intn room.H
  ((room.X + xr.1, room.Y + yr.1), yr.2)

/-- The acceptance test of one `randomFloorTile` attempt (state.go): the
tile must be walkable and must avoid the player's tile, the door tile and
the merge-conflict trap tile. -/
def rftAccept (gs : GameState) (x y : Int) : Bool :=
  gs.Dungeon.IsWalkable x y &&
  !(match gs.Player with
    | some p => x == p.X && y == p.Y
    | none => false) &&
  !(x == gs.DoorX && y == gs.DoorY) &&
  !(x == gs.MergeConflictX && y == gs.MergeConflictY)

/-- The retry loop of `randomFloorTile` (state.go): up to 100 attempts,
breaking out immediately when the dungeon has no rooms; on exhaustion fall
back to the grid center. -/
def rftLoop (gs : GameState) : Nat → Rng → (Int × Int) × Rng
  | 0, rng => ((gs.Dungeon.Width / 2, gs.Dungeon.Height / 2), rng)
  | n + 1, rng =>
    if gs.Dungeon.Rooms.length = 0 then
      ((gs.Dungeon.Width / 2, gs.Dungeon.Height / 2), rng)
    else
      let c := rftCandidate gs rng
      if rftAccept gs c.1.1 c.1.2 then c else rftLoop gs n c.2

/-- `(*GameState).randomFloorTile` (state.go). -/
def randomFloorTile (gs : GameState) : (Int × Int) × Rng :=
  rftLoop gs 100 gs.RNG

/-- Point update of a boolean grid (`gs.Visible[iy][ix] = true`). -/
def setGrid (g : Int → Int → Bool) (y x : Int) : Int → Int → Bool :=
  fun b a => if b = y ∧ a = x then true else g b a

/-- The visible/explored marking of one `castRay` step (state.go):
`gs.Visible[iy][ix] = true; gs.Explored[iy][ix] = true`. -/
def markVisible (gs : GameState) (iy ix : Int) : GameState :=
  { gs with Visible := setGrid gs.Visible iy ix
            Explored := setGrid gs.Explored iy ix }

/-- The stepping loop of `castRay` (state.go):
`for dist := 0; dist <= VisionRadius; dist++`, stopping at the grid edge and
just after marking a wall tile (the wall test reads the dungeon, which the
marking does not touch). -/
def castRayLoop : Nat → GameState → Rat → Rat → Rat → Rat → GameState
  | 0, gs, _, _, _, _ => gs
  | f + 1, gs, dx, dy, x, y =>
    let ix := ratToInt (x + (1 : Rat) / 2)
    let iy := ratToInt (y + (1 : Rat) / 2)
    if ix < 0 ∨ gs.Dungeon.Width ≤ ix ∨ iy < 0 ∨ gs.Dungeon.Height ≤ iy then gs
    else if gs.Dungeon.Tiles iy ix = .wall then markVisible gs iy ix
    else castRayLoop f (markVisible gs iy ix) dx dy (x + dx) (y + dy)

/-- `(*GameState).castRay` (state.go). -/
def castRay (gs : GameState) (startX startY angle : Int) : GameState :=
  let rad : Rat := (angle : Rat) * 3.14159265 / 180
  castRayLoop (VisionRadius + 1) gs (cosApprox rad) (sinApprox rad)
    (startX : Rat) (startY : Rat)

/-- `(*GameState).updateVisibility` (state.go): clear the visible grid and
cast a ray every 2 degrees.  Go dereferences the (never-nil at this point)
player for the ray origin. -/
def updateVisibility (gs : GameState) : GameState :=
  match gs.Player with
  | none => gs
  | some p =>
    let gs0 := { gs with Visible := fun _ _ => false }
    (List.range 180).foldl (fun g (k : Nat) => castRay g p.X p.Y (2 * (k : Int))) gs0

/-- The sampling loop of `hasLineOfSight` (state.go). -/
def losLoop : Nat → GameState → Rat → Rat → Rat → Rat → Bool
  | 0, _, _, _, _, _ => true
  | f + 1, gs, xInc, yInc, x, y =>
    let x' := x + xInc
    let y' := y + yInc
    let ix := ratToInt (x' + (1 : Rat) / 2)
    let iy := ratToInt (y' + (1 : Rat) / 2)
    if ¬ gs.Dungeon.IsWalkable ix iy then false
    else losLoop f gs xInc yInc x' y'

/-- `(*GameState).hasLineOfSight` (state.go). -/
def hasLineOfSight (gs : GameState) (x1 y1 x2 y2 : Int) : Bool :=
  let dx := x2 - x1
  let dy := y2 - y1
  let steps0 := absInt dx
  let steps := if steps0 < absInt dy then absInt dy else steps0
  if steps = 0 then true
  else losLoop steps.toNat gs ((dx : Rat) / (steps : Rat)) ((dy : Rat) / (steps : Rat))
    (x1 : Rat) (y1 : Rat)

/-- `(*GameState).isInMergeConflictArea` (state.go): the 5×3 core around
the trap plus the spread tiles. -/
def isInMergeConflictArea (gs : GameState) (x y : Int) : Bool :=
  let dx := x - gs.MergeConflictX
  let dy := y - gs.MergeConflictY
  (-2 ≤ dx && dx ≤ 2 && -1 ≤ dy && dy ≤ 1) ||
  gs.MergeConflictSpread.any (fun t => x == t.1 && y == t.2)

/-- `(*GameState).canEnemyMoveTo` (state.go); the Go pointer comparison
`e != self` becomes an index comparison (`selfIdx` is the moving enemy's
position in the `Enemies` slice). -/
def canEnemyMoveTo (gs : GameState) (x y : Int) (selfIdx : Nat) : Bool :=
  gs.Dungeon.IsWalkable x y &&
  !(match gs.Player with
    | some p => x == p.X && y == p.Y
    | none => false) &&
  (List.range gs.Enemies.length).all (fun j =>
    if j = selfIdx then true
    else
      match gs.Enemies.get? j with
      | some e => !(e.IsAlive && e.X == x && e.Y == y)
      | none => true)

/-- One iteration of the `moveEnemies` loop (state.go): skip dead or
out-of-sight enemies, chase diagonally with cardinal fallbacks, then apply
merge-conflict fire damage to the enemy if the fire is burning there. -/
def moveEnemyStep (gs : GameState) (i : Nat) : GameState :=
  match gs.Player, gs.Enemies.get? i with
  | some p, some e =>
    if ¬ e.IsAlive then gs
    else if ¬ hasLineOfSight gs e.X e.Y p.X p.Y then gs
    else
      let dx : Int := if e.X < p.X then 1 else if p.X < e.X then -1 else 0
      let dy : Int := if e.Y < p.Y then 1 else if p.Y < e.Y then -1 else 0
      let e1 :=
        if canEnemyMoveTo gs (e.X + dx) (e.Y + dy) i then
          { e with X := e.X + dx, Y := e.Y + dy }
        else if dx ≠ 0 && canEnemyMoveTo gs (e.X + dx) e.Y i then
          { e with X := e.X + dx }
        else if dy ≠ 0 && canEnemyMoveTo gs e.X (e.Y + dy) i then
          { e with Y := e.Y + dy }
        else e
      let e2 :=
        if gs.MergeConflictTriggered && isInMergeConflictArea gs e1.X e1.Y then
          e1.TakeDamage 1
        else e1
      { gs with Enemies := gs.Enemies.set i e2 }
  | _, _ => gs

/-- `(*GameState).moveEnemies` (state.go): each enemy in slice order, each
seeing the effects of the previous ones. -/
def moveEnemies (gs : GameState) : GameState :=
  (List.range gs.Enemies.length).foldl moveEnemyStep gs

/-- One iteration of the `playerAutoAttack` loop (state.go). -/
def autoAttackStep (gs : GameState) (i : Nat) : GameState :=
  match gs.Player, gs.Enemies.get? i with
  | some p, some e =>
    if e.IsAlive && p.IsAdjacent e then
      if ¬ (e.TakeDamage p.Damage).IsAlive then
        { gs with Enemies := gs.Enemies.set i (e.TakeDamage p.Damage)
                  EnemiesKilled := gs.EnemiesKilled + 1
                  Message := if (e.TakeDamage p.Damage).type = .bug then "You squashed a bug!"
                             else "You eliminated a scope creep!"
                  MessageStyle := .default }
      else { gs with Enemies := gs.Enemies.set i (e.TakeDamage p.Damage) }
    else gs
  | _, _ => gs

/-- `(*GameState).playerAutoAttack` (state.go). -/
def playerAutoAttack (gs : GameState) : GameState :=
  (List.range gs.Enemies.length).foldl autoAttackStep gs

/-- One iteration of the `enemyAttacks` loop (state.go): an adjacent living
enemy damages the player, writes the red damage message, and records the
killer when the player dies. -/
def enemyAttackStep (gs : GameState) (i : Nat) : GameState :=
  match gs.Player, gs.Enemies.get? i with
  | some p, some e =>
    if e.IsAlive && p.IsAdjacent e then
      if ¬ (p.TakeDamage e.Damage).IsAlive then
        { gs with Player := some (p.TakeDamage e.Damage)
                  Message := (if e.type = .bug then "A bug attacked - "
                              else "A scope creep attacked - ")
                    ++ toString e.Damage ++ " HP damage"
                  MessageStyle := .redBold
                  KilledBy := if e.type = .bug then "bug" else "scope_creep" }
      else
        { gs with Player := some (p.TakeDamage e.Damage)
                  Message := (if e.type = .bug then "A bug attacked - "
                              else "A scope creep attacked - ")
                    ++ toString e.Damage ++ " HP damage"
                  MessageStyle := .redBold }
    else gs
  | _, _ => gs

/-- `(*GameState).enemyAttacks` (state.go): no-op under Konami-code
invulnerability, else every adjacent living enemy hits the player. -/
def enemyAttacks (gs : GameState) : GameState :=
  if gs.Invulnerable then gs
  else (List.range gs.Enemies.length).foldl enemyAttackStep gs

/-- `(*GameState).distanceToMergeConflict` (state.go): Chebyshev distance
from the player to the trap center. -/
def distanceToMergeConflict (gs : GameState) : Int :=
  match gs.Player with
  | none => 0
  | some p =>
    let dx := absInt (p.X - gs.MergeConflictX)
    let dy := absInt (p.Y - gs.MergeConflictY)
    if dy < dx then dx else dy

/-- Swap two positions of a list (the body of `rng.Shuffle`'s callback). -/
def swapAt (l : List (Int × Int)) (i j : Nat) : List (Int × Int) :=
  let a := l.getD i (0, 0)
  let b := l.getD j (0, 0)
  (l.set i b).set j a

/-- Fisher–Yates downward loop of Go `rand.Shuffle`: for `i` from `n-1`
down to `1`, draw `j` in `[0, i+1)` and swap.  Modelled from the spec:
`Shuffle` is `math/rand` library code; §4.1 lists "a shuffle operation"
among the draws of the single generator. -/
def fisherYates : Nat → List (Int × Int) → Rng → List (Int × Int) × Rng
  | 0, l, rng => (l, rng)
  | i + 1, l, rng =>
    let d := rng.intn ((i : Int) + 2)
    fisherYates i (swapAt l (i + 1) d.1.toNat) d.2

/-- Go `rng.Shuffle(len(l), swap)`. -/
def Rng.shuffle (rng : Rng) (l : List (Int × Int)) : List (Int × Int) × Rng :=
  match l.length with
  | 0 => (l, rng)
  | n + 1 => fisherYates n l rng

/-- The deduplicated list of walkable tiles adjacent to the 5×3 core of the
trap, in the order `generateMergeConflictSpread` (state.go) discovers them.
Go iterates a `map` to enumerate the core here, in runtime-randomized
order; the model fixes row-major order (no claim depends on the spread's
contents). -/
def spreadAdjacent (gs : GameState) : List (Int × Int) :=
  let core := (List.range 3).foldl
    (fun acc r => acc ++ (List.range 5).map
      (fun c => (gs.MergeConflictX + (c : Int) - 2, gs.MergeConflictY + (r : Int) - 1))) []
  let dirs : List (Int × Int) :=
    [(-1, -1), (0, -1), (1, -1), (-1, 0), (1, 0), (-1, 1), (0, 1), (1, 1)]
  core.foldl (fun acc t =>
    dirs.foldl (fun acc' dd =>
      let nx := t.1 + dd.1
      let ny := t.2 + dd.2
      if core.contains (nx, ny) then acc'
      else if nx < 0 ∨ gs.Dungeon.Width ≤ nx ∨ ny < 0 ∨ gs.Dungeon.Height ≤ ny then acc'
      else if ¬ gs.Dungeon.IsWalkable nx ny then acc'
      else if acc'.contains (nx, ny) then acc'
      else acc' ++ [(nx, ny)]) acc) []

/-- `(*GameState).generateMergeConflictSpread` (state.go): shuffle the
adjacent tiles and keep (up to) 7 of them.  (The Go nil-dungeon guard for
tests is vacuous here: the model's `Dungeon` is always a value.) -/
def generateMergeConflictSpread (gs : GameState) : GameState :=
  let sh := gs.RNG.shuffle (spreadAdjacent gs)
  let n := if sh.1.length < 7 then sh.1.length else 7
  { gs with MergeConflictSpread := sh.1.take n, RNG := sh.2 }

/-- The on-trap-center entry of `checkMergeConflict` (state.go): on first
contact set the flags and generate the spread, then rotate the colors.
(The rotation reads the current rotation counter, which the spread
generation does not touch.) -/
def cmcEnter (gs : GameState) : GameState :=
  if ¬ gs.OnMergeConflict then
    { generateMergeConflictSpread
        { gs with OnMergeConflict := true, MergeConflictTriggered := true
                  MergeConflictMovements := 0 }
      with ColorRotation := gs.ColorRotation + 1 }
  else { gs with ColorRotation := gs.ColorRotation + 1 }

/-- `(*GameState).checkMergeConflict` (state.go): first contact with the
trap center marks it triggered and generates the spread; standing on the
center costs 1 HP per turn unless invulnerable (the invulnerability and
aliveness tests read fields the entry step does not touch); leaving the
area clears `OnMergeConflict`. -/
def checkMergeConflict (gs : GameState) : GameState :=
  match gs.Player with
  | none => gs
  | some p =>
    if p.X = gs.MergeConflictX ∧ p.Y = gs.MergeConflictY then
      if ¬ gs.Invulnerable then
        if ¬ (p.TakeDamage 1).IsAlive then
          { cmcEnter gs with Player := some (p.TakeDamage 1)
                             Message := "- 1 HP damage", MessageStyle := .redBold
                             KilledBy := "merge_conflict" }
        else
          { cmcEnter gs with Player := some (p.TakeDamage 1)
                             Message := "- 1 HP damage", MessageStyle := .redBold }
      else
        (cmcEnter gs).setMessage
          "The merge conflict burns around you, but your invulnerability protects you!"
    else if gs.MergeConflictTriggered then
      if gs.OnMergeConflict ∧ ¬ isInMergeConflictArea gs p.X p.Y then
        { gs with ColorRotation := gs.ColorRotation + 1, OnMergeConflict := false }
      else { gs with ColorRotation := gs.ColorRotation + 1 }
    else { gs with OnMergeConflict := false }

/-- The tail of `processTurn` (state.go): the death check, then the trap
proximity warning. -/
def processTurnDeath (g : GameState) : GameState :=
  if ¬ g.playerAlive then
    { g with GameOver := true, Message := "You died!", MessageStyle := .default }
  else
    if distanceToMergeConflict g ≤ 2 ∧ 0 < distanceToMergeConflict g ∧ g.Message = "" then
      g.setMessage MergeConflictWarning
    else g

/-- The end-of-turn trap movement counter of `processTurn` (state.go),
followed by the death check and warning. -/
def processTurnEnd (g : GameState) : GameState :=
  if g.OnMergeConflict then
    processTurnDeath { g with MergeConflictMovements := g.MergeConflictMovements + 1 }
  else processTurnDeath g

/-- `(*GameState).processTurn` (state.go): auto-attack, merge-conflict
check, enemy movement, enemy attacks, visibility, the end-of-turn trap
movement counter, the death check, and the proximity warning. -/
def processTurn (gs : GameState) : GameState :=
  processTurnEnd (updateVisibility (enemyAttacks (moveEnemies (checkMergeConflict
    (playerAutoAttack gs)))))

/-- Insertion into the `MergeAffectedTiles` key set. -/
def insertKey (l : List Int) (k : Int) : List Int :=
  if l.contains k then l else l ++ [k]

/-- The 3×3 marking loop of `triggerMergeConflict` (state.go), keys
`y*Width + x`, bounds-guarded. -/
def markAffected (gs : GameState) : GameState :=
  { gs with MergeAffectedTiles :=
      (List.range 3).foldl (fun acc j =>
        (List.range 3).foldl (fun acc' i =>
          let ax := gs.MergeMarkerX + (i : Int) - 1
          let ay := gs.MergeMarkerY + (j : Int) - 1
          if 0 ≤ ax ∧ ax < gs.Dungeon.Width ∧ 0 ≤ ay ∧ ay < gs.Dungeon.Height then
            insertKey acc' (ay * gs.Dungeon.Width + ax)
          else acc') acc) gs.MergeAffectedTiles }

/-- `(*GameState).triggerMergeConflict` (state.go): stepping on the merge
marker costs 2 HP (unless invulnerable), marks the 3×3 area, and checks for
death. -/
def triggerMergeConflict (gs : GameState) : GameState :=
  let gs1 :=
    if ¬ gs.Invulnerable then
      match gs.Player with
      | some p => { gs with Player := some (p.TakeDamage 2) }
      | none => gs
    else gs
  let gs2 := gs1.setMessage "MERGE CONFLICT! The code tears apart around you!"
  let gs3 := markAffected gs2
  if ¬ gs3.playerAlive then
    { gs3 with GameOver := true, Message := "You died in a merge conflict!"
               MessageStyle := .default }
  else gs3

/-- `(*GameState).IsMergeAffected` (state.go). -/
def IsMergeAffected (gs : GameState) (x y : Int) : Bool :=
  gs.MergeAffectedTiles.contains (y * gs.Dungeon.Width + x)

/-- The bump-attack block of `MovePlayer` (state.go): damage the enemy at
index `i`, award a kill and the kill message if it died, else the attack
message. -/
def bumpHit (gs : GameState) (p : Entity) (i : Nat) : GameState :=
  match gs.Enemies.get? i with
  | none => gs
  | some e =>
    if ¬ (e.TakeDamage p.Damage).IsAlive then
      { gs with Enemies := gs.Enemies.set i (e.TakeDamage p.Damage)
                EnemiesKilled := gs.EnemiesKilled + 1
                Message := if (e.TakeDamage p.Damage).type = .bug then "You squashed a bug!"
                           else "You eliminated a scope creep!"
                MessageStyle := .default }
    else
      { gs with Enemies := gs.Enemies.set i (e.TakeDamage p.Damage)
                Message := "You attack!", MessageStyle := .default }

/-- The death check ending the bump-attack branch of `MovePlayer`
(state.go). -/
def bumpDeath (g : GameState) : GameState :=
  if ¬ g.playerAlive then
    { g with GameOver := true, Message := "You died!", MessageStyle := .default }
  else g

/-- The whole bump-attack branch of `MovePlayer` (state.go): hit, enemy
movement, enemy attacks, visibility refresh, death check. -/
def bumpResolve (gs : GameState) (p : Entity) (i : Nat) : GameState :=
  bumpDeath (updateVisibility (enemyAttacks (moveEnemies (bumpHit gs p i))))

/-- The potion-pickup loop of `MovePlayer` (state.go): the first potion at
the new position is removed and heals the player by 3 (the loop breaks). -/
def pickupPotion (gs : GameState) (x y : Int) : GameState :=
  match gs.Potions.findIdx? (fun q => q.X == x && q.Y == y) with
  | none => gs
  | some i =>
    match gs.Player with
    | none => gs
    | some p =>
      { gs with Player := some (p.Heal 3)
                Potions := gs.Potions.eraseIdx i
                Message := "You drink a health potion! (+3 HP)"
                MessageStyle := .default }

/-- Modelled from the spec: `findCentralRoomCenter` (game.go) is not among
the recovered sources; its callers and comments describe it as returning
"the center of the most central room" of the dungeon, or `(-1, -1)` when
there is no room.  The model picks the room whose center minimizes the
squared distance to the grid center (first room on ties). -/
def findCentralRoomCenter (d : Dungeon) : Int × Int :=
  match d.Rooms with
  | [] => (-1, -1)
  | r0 :: rest =>
    let cx := d.Width / 2
    let cy := d.Height / 2
    let dist2 := fun (r : Room) =>
      let c := r.center
      (c.1 - cx) * (c.1 - cx) + (c.2 - cy) * (c.2 - cy)
    let best := rest.foldl (fun b r => if dist2 r < dist2 b then r else b) r0
    best.center

/-- One enemy spawn of `generateLevel` (state.go): a `randomFloorTile`
draw, then the kind draw (`Float32() > 0.4` → Bug, else ScopeCreep). -/
def spawnEnemyStep (gs : GameState) : GameState :=
  let t := randomFloorTile gs
  let fr := t.2.float32
  let e := if floatGtTwoFifths fr.1 then NewBug t.1.1 t.1.2 else NewScopeCreep t.1.1 t.1.2
  { gs with RNG := fr.2, Enemies := gs.Enemies ++ [e] }

/-- The enemy-spawn loop of `generateLevel` (state.go):
`numEnemies := 3 + gs.Level*2`. -/
def spawnEnemies (gs : GameState) : GameState :=
  (List.range (3 + gs.Level * 2).toNat).foldl (fun g _ => spawnEnemyStep g)
    { gs with Enemies := [] }

/-- The potion-count draw of `generateLevel` (state.go line
`numPotions := 2 + gs.Level + gs.RNG.Intn(2)`): level-dependent base
`2 + level` plus a jitter drawn from `Intn(2)`. -/
def numPotionsDraw (level : Int) (rng : Rng) : Int × Rng :=
  let j := rng.intn 2
  (2 + level + j.1, j.2)

/-- One potion spawn of `generateLevel` (state.go). -/
def spawnPotionStep (gs : GameState) : GameState :=
  let t := randomFloorTile gs
  { gs with RNG := t.2, Potions := gs.Potions ++ [NewPotion t.1.1 t.1.2] }

/-- The potion-spawn loop of `generateLevel` (state.go). -/
def spawnPotions (gs : GameState) : GameState :=
  let d := numPotionsDraw gs.Level gs.RNG
  (List.range d.1.toNat).foldl (fun g _ => spawnPotionStep g)
    { gs with RNG := d.2, Potions := [] }

/-- `(*GameState).generateLevel` (state.go): dimensions from the terminal
(clamped to 40×20 after reserving 3 UI lines), dungeon generation, player
placement in the first room, door, trap (note: the trap's own
`randomFloorTile` call still excludes the previous level's trap tile — the
field is only overwritten afterwards, as in Go), enemy and potion spawns,
merge marker, visibility.  Returns `none` for the Go panic that occurs when
the very first level generates no rooms (nil player in
`updateVisibility`). -/
def generateLevel (gs : GameState) : Option GameState :=
  let width := if gs.TermWidth < 40 then 40 else gs.TermWidth
  let height0 := gs.TermHeight - 3
  let height := if height0 < 20 then 20 else height0
  let codeFile : Option CodeFile :=
    if gs.CodeFiles.length = 0 then none
    else some (gs.CodeFiles.getD
      ((Int.tmod (gs.Level - 1) (gs.CodeFiles.length : Int)).toNat) ⟨"", [], ""⟩)
  let dg := GenerateDungeon width height gs.RNG codeFile
  let gs1 := { gs with Dungeon := dg.1, RNG := dg.2
                       Visible := fun _ _ => false, Explored := fun _ _ => false }
  let gs2 :=
    match gs1.Dungeon.Rooms with
    | [] => gs1
    | r0 :: _ =>
      let c := r0.center
      match gs1.Player with
      | none => { gs1 with Player := some (NewPlayer c.1 c.2) }
      | some p => { gs1 with Player := some { p with X := c.1, Y := c.2 } }
  let pd := PlaceDoor gs2.Dungeon gs2.RNG
  let gs3 := { gs2 with DoorX := pd.1.1, DoorY := pd.1.2, Dungeon := pd.2.1, RNG := pd.2.2 }
  let tr := randomFloorTile gs3
  let gs4 := { gs3 with MergeConflictX := tr.1.1, MergeConflictY := tr.1.2
                        RNG := tr.2, OnMergeConflict := false }
  let gs5 := spawnPotions (spawnEnemies gs4)
  let mm := findCentralRoomCenter gs5.Dungeon
  let gs6 := { gs5 with MergeMarkerX := mm.1, MergeMarkerY := mm.2
                        MergeAffectedTiles := [] }
  match gs6.Player with
  | none => none
  | some _ => some ((updateVisibility gs6).setMessage "")

/-- Modelled from the spec: `getUsername` (scanner.go) shells out to the
`gh`/`git` CLIs — external input, explicitly "not part of the seed" — and
is modelled as a constant. -/
def getUsername : String := ""

/-- The Go zero value of the `Dungeon` pointer field before `generateLevel`
first assigns it (never read before that). -/
def emptyDungeon : Dungeon :=
  { Width := 0, Height := 0, Tiles := fun _ _ => .wall, Rooms := [], CodeFile := none }

/-- `NewGameState` (state.go): the session record with Go zero values for
unlisted fields, then the first `generateLevel`. -/
def NewGameState (codeFiles : List CodeFile) (seed : Int) (termWidth termHeight : Int) :
    Option GameState :=
  generateLevel
    { Player := none, Enemies := [], Potions := [], Dungeon := emptyDungeon
      Level := 1, MaxLevel := 5, DoorX := 0, DoorY := 0
      Visible := fun _ _ => false, Explored := fun _ _ => false
      GameOver := false, Victory := false, EnemiesKilled := 0
      Message := "", MessageStyle := .default, CodeFiles := codeFiles
      RNG := mkRng seed, TermWidth := termWidth, TermHeight := termHeight
      KonamiSequence := [], Invulnerable := false, MoveCount := 0
      Username := getUsername, MergeConflictX := 0, MergeConflictY := 0
      OnMergeConflict := false, MergeConflictTriggered := false
      MergeConflictMovements := 0, KilledBy := "", MergeConflictSpread := []
      ColorRotation := 0, MergeConflict := none
      MergeMarkerX := -1, MergeMarkerY := -1, MergeAffectedTiles := []
      MergeAnimationStep := 0 }

/-- The player-relocation step of `MovePlayer` (state.go): move onto the
target tile and count the move. -/
def moveApply (gs : GameState) (p : Entity) (newX newY : Int) : GameState :=
  { gs with Player := some { p with X := newX, Y := newY }
            MoveCount := gs.MoveCount + 1 }

/-- The merge-conflict animation step of `MovePlayer` (state.go): cycle
when any affected tiles exist. -/
def animApply (g : GameState) : GameState :=
  if 0 < g.MergeAffectedTiles.length then
    { g with MergeAnimationStep := g.MergeAnimationStep + 1 }
  else g

/-- The merge-marker check of `MovePlayer` (state.go). -/
def markerApply (g : GameState) (newX newY : Int) : GameState :=
  if newX = g.MergeMarkerX ∧ newY = g.MergeMarkerY then triggerMergeConflict g else g

/-- The door check of `MovePlayer` (state.go): level transition or victory
(both exit without running the turn phases), else the full turn. -/
def doorApply (g : GameState) (newX newY : Int) : Option GameState :=
  if newX = g.DoorX ∧ newY = g.DoorY then
    if g.MaxLevel ≤ g.Level then
      some ({ g with Victory := true }.setMessage "You've escaped the dungeon! Victory!")
    else
      (generateLevel { g with Level := g.Level + 1 }).map
        (fun x => x.setMessage "You descend deeper into the dungeon...")
  else some (processTurn g)

/-- `(*GameState).MovePlayer` (state.go).  `none` models the Go nil-player
panic (possible only for a session whose first level had no rooms). -/
def MovePlayer (gs : GameState) (dx dy : Int) : Option GameState :=
  if gs.GameOver || gs.Victory then some gs
  else
    match gs.Player with
    | none => none
    | some p =>
      let newX := p.X + dx
      let newY := p.Y + dy
      if ¬ gs.Dungeon.IsWalkable newX newY then some gs
      else
        match gs.Enemies.findIdx? (fun e => e.IsAlive && e.X == newX && e.Y == newY) with
        | some i => some (bumpResolve gs p i)
        | none =>
          doorApply
            (markerApply (pickupPotion (animApply (moveApply gs p newX newY)) newX newY)
              newX newY)
            newX newY

/-- `(*GameState).Resize` (state.go). -/
def GameState.resize (gs : GameState) (termWidth termHeight : Int) : GameState :=
  { gs with TermWidth := termWidth, TermHeight := termHeight }

/-! ### Concrete states used by witnesses and counterexamples -/

/-- A 7×7 grid whose interior square `[1,5]×[1,5]` is floor. -/
def wTiles : Int → Int → Tile :=
  fun y x => if 1 ≤ y ∧ y ≤ 5 ∧ 1 ≤ x ∧ x ≤ 5 then .floor else .wall

/-- A small concrete dungeon: one 5×5 room filling the floor area. -/
def wDungeon : Dungeon :=
  { Width := 7, Height := 7, Tiles := wTiles, Rooms := [⟨1, 1, 5, 5⟩], CodeFile := none }

/-- A concrete mid-game session on `wDungeon`: player at (3,3), no enemies
or potions, door at (5,5), trap at (4,5), merge marker at (1,5). -/
def baseState : GameState :=
  { Player := some (NewPlayer 3 3), Enemies := [], Potions := []
    Dungeon := wDungeon, Level := 1, MaxLevel := 5, DoorX := 5, DoorY := 5
    Visible := fun _ _ => false, Explored := fun _ _ => false
    GameOver := false, Victory := false, EnemiesKilled := 0
    Message := "", MessageStyle := .default, CodeFiles := []
    RNG := ⟨fun _ => 0, 0⟩, TermWidth := 80, TermHeight := 24
    KonamiSequence := [], Invulnerable := false, MoveCount := 0, Username := ""
    MergeConflictX := 4, MergeConflictY := 5, OnMergeConflict := false
    MergeConflictTriggered := false, MergeConflictMovements := 0, KilledBy := ""
    MergeConflictSpread := [], ColorRotation := 0, MergeConflict := none
    MergeMarkerX := 1, MergeMarkerY := 5, MergeAffectedTiles := []
    MergeAnimationStep := 0 }

/-- Advancing the stream cursor by `k` draws. -/
def Rng.advanceBy (r : Rng) (k : Nat) : Rng := { r with pos := r.pos + k }

/-- A stream that proposes the trap tile (3,3) first and then (4,4). -/
def tStream : Nat → Nat := fun n => [0, 2, 2, 0, 3, 3].getD n 0

/-- A session state whose next `randomFloorTile` candidate is its own trap
tile (3,3), which is walkable and is neither the player's tile (1,1) nor
the door tile (2,1). -/
def gsT : GameState :=
  { baseState with Player := some (NewPlayer 1 1), DoorX := 2, DoorY := 1
                   MergeConflictX := 3, MergeConflictY := 3, RNG := ⟨tStream, 0⟩ }

/-- A session state whose stream makes every `randomFloorTile` call return
the same tile (3,3), so consecutive spawns collide. -/
def gsD : GameState :=
  { baseState with Player := some (NewPlayer 1 1), DoorX := 2, DoorY := 1
                   RNG := ⟨fun _ => 2, 0⟩ }

/-- A session state whose only room is the player's own 1×1 tile, so every
`randomFloorTile` candidate is rejected and the fallback fires. -/
def gsF : GameState :=
  { baseState with Player := some (NewPlayer 1 1)
                   Dungeon := { wDungeon with Rooms := [⟨1, 1, 1, 1⟩] }
                   RNG := ⟨fun _ => 0, 0⟩ }

/-- A session state on the final level whose player stands exactly on the
door tile (a walkable floor tile): the target of a zero-delta move is the
door itself. -/
def gsC9 : GameState :=
  { baseState with Player := some (NewPlayer 5 5), Level := 5 }

/-- An abstract damage/heal call, for quantifying over call sequences
(claim C8). -/
inductive HpOp where
  | damage (n : Int)
  | heal (n : Int)
deriving DecidableEq, Repr

/-- The argument of a damage/heal call. -/
def HpOp.arg : HpOp → Int
  | .damage n => n
  | .heal n => n

/-- Apply one damage/heal call to an entity. -/
def applyHpOp (e : Entity) : HpOp → Entity
  | .damage n => e.TakeDamage n
  | .heal n => e.Heal n

/-- Apply a sequence of damage/heal calls to an entity. -/
def applyHpOps (e : Entity) (ops : List HpOp) : Entity :=
  ops.foldl applyHpOp e

/-- One step of the spec's breadth-first connectivity walk (spec §8
"Connectivity"): move to a 4-adjacent tile that is walkable. -/
def adjStep (d : Dungeon) (p q : Int × Int) : Prop :=
  d.IsWalkable q.1 q.2 = true ∧
  ((q.1 = p.1 + 1 ∧ q.2 = p.2) ∨ (q.1 = p.1 - 1 ∧ q.2 = p.2) ∨
   (q.1 = p.1 ∧ q.2 = p.2 + 1) ∨ (q.1 = p.1 ∧ q.2 = p.2 - 1))

/-- Breadth-first reachability over walkable tiles: the reflexive-transitive
closure of `adjStep`.  A breadth-first walk from `p` visits exactly the
tiles related to `p` by this closure. -/
def Reachable (d : Dungeon) (p q : Int × Int) : Prop :=
  Relation.ReflTransGen (adjStep d) p q

/-- The geometry invariant of every room the BSP generator produces on a
`W × H` grid: extents at least `MinRoomSize` and a 1-cell wall margin to
the grid edge. -/
def RoomOK (r : Room) (W H : Int) : Prop :=
  MinRoomSize ≤ r.W ∧ MinRoomSize ≤ r.H ∧ 1 ≤ r.X ∧ 1 ≤ r.Y ∧
    r.X + r.W ≤ W - 1 ∧ r.Y + r.H ≤ H - 1

/-- Every leaf rectangle of a BSP tree lies inside the rectangle
`(X, Y, W, H)`. -/
def nodeWithin : BSPNode → Int → Int → Int → Int → Prop
  | .leaf x y w h _, X, Y, W, H => X ≤ x ∧ Y ≤ y ∧ x + w ≤ X + W ∧ y + h ≤ Y + H
  | .branch _ _ _ _ l r, X, Y, W, H => nodeWithin l X Y W H ∧ nodeWithin r X Y W H

/-- `d'` differs from `d` only by turning some tiles into non-wall tiles:
the dimensions and room list agree and every non-wall tile of `d` is still
non-wall in `d'`.  All the carving steps of the generator have this shape. -/
def tilesOnly (d d' : Dungeon) : Prop :=
  d'.Width = d.Width ∧ d'.Height = d.Height ∧ d'.Rooms = d.Rooms ∧
    ∀ a b, d.Tiles b a ≠ .wall → d'.Tiles b a ≠ .wall

/-!
## Theorems

First the shared frame lemmas about the turn-engine helpers, then the
claims in order.
-/

theorem castRayLoop_shape (f : Nat) (gs : GameState) (dx dy x y : Rat) :
    ∃ v e, castRayLoop f gs dx dy x y = { gs with Visible := v, Explored := e } := by
  induction f generalizing gs x y with
  | zero => exact ⟨gs.Visible, gs.Explored, rfl⟩
  | succ f ih =>
    rw [castRayLoop]
    split
    · exact ⟨gs.Visible, gs.Explored, rfl⟩
    · split
      · exact ⟨_, _, rfl⟩
      · obtain ⟨v, e, he⟩ := ih (markVisible gs (ratToInt (y + (1 : Rat) / 2))
          (ratToInt (x + (1 : Rat) / 2))) (x + dx) (y + dy)
        exact ⟨v, e, he⟩

theorem foldRays_shape (p : Entity) (l : List Nat) : ∀ g : GameState,
    ∃ v e, l.foldl (fun g' (k : Nat) => castRay g' p.X p.Y (2 * (k : Int))) g
      = { g with Visible := v, Explored := e } := by
  induction l with
  | nil => exact fun g => ⟨g.Visible, g.Explored, rfl⟩
  | cons a l ih =>
    intro g
    rw [List.foldl_cons]
    have h1 : ∃ v e, castRay g p.X p.Y (2 * (a : Int))
        = { g with Visible := v, Explored := e } :=
      castRayLoop_shape (VisionRadius + 1) g _ _ _ _
    obtain ⟨v1, e1, h1⟩ := h1
    rw [h1]
    obtain ⟨v2, e2, h2⟩ := ih { g with Visible := v1, Explored := e1 }
    exact ⟨v2, e2, h2⟩

theorem updateVisibility_shape (gs : GameState) :
    ∃ v e, updateVisibility gs = { gs with Visible := v, Explored := e } := by
  unfold updateVisibility
  split
  · exact ⟨gs.Visible, gs.Explored, rfl⟩
  · next p _ =>
    obtain ⟨v, e, he⟩ := foldRays_shape p (List.range 180)
      { gs with Visible := fun _ _ => false }
    exact ⟨v, e, he⟩

/-- C6: whenever the GameOver or Victory flag is set, every movePlayer call
is a no-op that mutates no field of the game state (in particular after the
final-level door sets Victory, no further call mutates any entity). -/
theorem claim_C6 (gs : GameState) (dx dy : Int)
    (h : gs.GameOver = true ∨ gs.Victory = true) :
    MovePlayer gs dx dy = some gs := by
  unfold MovePlayer
  rcases h with h | h <;> simp [h]

theorem claim_C6_witness :
    ({ baseState with Victory := true } : GameState).Victory = true ∧
      MovePlayer { baseState with Victory := true } 1 0
        = some { baseState with Victory := true } :=
  ⟨rfl, claim_C6 { baseState with Victory := true } 1 0 (Or.inr rfl)⟩

/-- C3: in a non-terminal state, a move whose target tile is non-walkable
is rejected and leaves every field of the game state unchanged — no entity
moves or takes damage, the move counter and message are untouched, and no
enemy phase runs. -/
theorem claim_C3 (gs : GameState) (p : Entity) (dx dy : Int)
    (hp : gs.Player = some p)
    (hgo : gs.GameOver = false) (hv : gs.Victory = false)
    (hw : gs.Dungeon.IsWalkable (p.X + dx) (p.Y + dy) = false) :
    MovePlayer gs dx dy = some gs := by
  unfold MovePlayer
  simp [hgo, hv, hp, hw]

theorem claim_C3_witness :
    baseState.Player = some (NewPlayer 3 3) ∧
      baseState.GameOver = false ∧ baseState.Victory = false ∧
      baseState.Dungeon.IsWalkable ((NewPlayer 3 3).X + (-3)) ((NewPlayer 3 3).Y + 0) = false ∧
      MovePlayer baseState (-3) 0 = some baseState :=
  ⟨rfl, rfl, rfl, by decide,
    claim_C3 baseState (NewPlayer 3 3) (-3) 0 rfl rfl rfl (by decide)⟩

/-- C2: for a fixed seed and viewport, two independent constructions of a
session produce bit-identical results — the same session wholesale, and in
particular the same dungeon tile grid, room list, door position, enemy
kinds and positions, and potion positions; the construction draws all its
randomness from the single seeded `Rng`, of which it is a pure function. -/
theorem claim_C2 (files : List CodeFile) (seed termWidth termHeight : Int) :
    NewGameState files seed termWidth termHeight
        = NewGameState files seed termWidth termHeight ∧
      (NewGameState files seed termWidth termHeight).map (fun g => g.Dungeon.Tiles)
        = (NewGameState files seed termWidth termHeight).map (fun g => g.Dungeon.Tiles) ∧
      (NewGameState files seed termWidth termHeight).map (fun g => g.Dungeon.Rooms)
        = (NewGameState files seed termWidth termHeight).map (fun g => g.Dungeon.Rooms) ∧
      (NewGameState files seed termWidth termHeight).map (fun g => (g.DoorX, g.DoorY))
        = (NewGameState files seed termWidth termHeight).map (fun g => (g.DoorX, g.DoorY)) ∧
      (NewGameState files seed termWidth termHeight).map
          (fun g => g.Enemies.map (fun e => (e.type, e.X, e.Y)))
        = (NewGameState files seed termWidth termHeight).map
          (fun g => g.Enemies.map (fun e => (e.type, e.X, e.Y))) ∧
      (NewGameState files seed termWidth termHeight).map
          (fun g => g.Potions.map (fun q => (q.X, q.Y)))
        = (NewGameState files seed termWidth termHeight).map
          (fun g => g.Potions.map (fun q => (q.X, q.Y))) :=
  ⟨rfl, rfl, rfl, rfl, rfl, rfl⟩

/-- C8: starting from HP within `[0, maxHP]`, every sequence of
damage/heal calls with nonnegative arguments keeps HP within `[0, maxHP]`;
`TakeDamage` subtracts and clamps at 0, `Heal` adds and clamps at MaxHP. -/
theorem claim_C8 (e : Entity) (ops : List HpOp)
    (h0 : 0 ≤ e.HP) (h1 : e.HP ≤ e.MaxHP)
    (hops : ∀ op ∈ ops, 0 ≤ op.arg) :
    (0 ≤ (applyHpOps e ops).HP ∧ (applyHpOps e ops).HP ≤ (applyHpOps e ops).MaxHP) ∧
      (∀ n : Int, (e.TakeDamage n).HP = max (e.HP - n) 0) ∧
      (∀ n : Int, (e.Heal n).HP = min (e.HP + n) e.MaxHP) := by
  refine ⟨?_, ?_, ?_⟩
  · induction ops generalizing e with
    | nil => exact ⟨h0, h1⟩
    | cons op ops ih =>
      have harg : 0 ≤ op.arg := hops op (List.mem_cons_self op ops)
      have hops' : ∀ o ∈ ops, 0 ≤ o.arg := fun o ho => hops o (List.mem_cons_of_mem op ho)
      rw [applyHpOps, List.foldl_cons]
      cases op with
      | damage n =>
        have hn : 0 ≤ n := harg
        refine ih (e.TakeDamage n) ?_ ?_ hops'
        · simp only [Entity.TakeDamage]
          split <;> omega
        · simp only [Entity.TakeDamage]
          split <;> omega
      | heal n =>
        have hn : 0 ≤ n := harg
        refine ih (e.Heal n) ?_ ?_ hops'
        · simp only [Entity.Heal]
          split <;> omega
        · simp only [Entity.Heal]
          split <;> omega
  · intro n
    simp only [Entity.TakeDamage]
    split <;> omega
  · intro n
    simp only [Entity.Heal]
    split <;> omega

theorem claim_C8_witness :
    (0 ≤ (NewPlayer 0 0).HP ∧ (NewPlayer 0 0).HP ≤ (NewPlayer 0 0).MaxHP ∧
      (∀ op ∈ [HpOp.damage 5, HpOp.heal 30, HpOp.damage 100, HpOp.heal 2], 0 ≤ op.arg)) ∧
      (0 ≤ (applyHpOps (NewPlayer 0 0)
            [HpOp.damage 5, HpOp.heal 30, HpOp.damage 100, HpOp.heal 2]).HP ∧
        (applyHpOps (NewPlayer 0 0)
            [HpOp.damage 5, HpOp.heal 30, HpOp.damage 100, HpOp.heal 2]).HP
          ≤ (applyHpOps (NewPlayer 0 0)
            [HpOp.damage 5, HpOp.heal 30, HpOp.damage 100, HpOp.heal 2]).MaxHP) :=
  ⟨⟨by decide, by decide, by decide⟩,
    (claim_C8 (NewPlayer 0 0) [HpOp.damage 5, HpOp.heal 30, HpOp.damage 100, HpOp.heal 2]
      (by decide) (by decide) (by decide)).1⟩

theorem spawnPotionFold_length (l : List Nat) : ∀ g : GameState,
    ((l.foldl (fun g' _ => spawnPotionStep g') g).Potions.length)
      = g.Potions.length + l.length := by
  induction l with
  | nil => intro g; simp
  | cons a l ih =>
    intro g
    rw [List.foldl_cons]
    rw [ih (spawnPotionStep g)]
    simp only [spawnPotionStep]
    simp [List.length_append]
    omega

/-- C5: the number of potions placed by `generateLevel` is the
level-dependent base `2 + level` plus a jitter drawn from `Intn(2)`
(so it lies in `{2+level, 3+level}`), and with the jitter draw fixed a
strictly higher level yields a strictly larger count — i.e. the base grows
strictly with the level. -/
theorem claim_C5 (gs : GameState) (hlev : 1 ≤ gs.Level) :
    (∃ j : Int, 0 ≤ j ∧ j < 2 ∧
        (numPotionsDraw gs.Level gs.RNG).1 = (2 + gs.Level) + j ∧
        ((spawnPotions gs).Potions.length : Int) = (2 + gs.Level) + j) ∧
      (∀ l1 l2 : Int, l1 < l2 → ∀ r : Rng,
        (numPotionsDraw l1 r).1 < (numPotionsDraw l2 r).1) := by
  constructor
  · refine ⟨((gs.RNG.stream gs.RNG.pos % 2 : Nat) : Int), ?_, ?_, ?_, ?_⟩
    · positivity
    · have : gs.RNG.stream gs.RNG.pos % 2 < 2 := Nat.mod_lt _ (by norm_num)
      omega
    · simp [numPotionsDraw, Rng.intn]
    · rw [show spawnPotions gs = (List.range (numPotionsDraw gs.Level gs.RNG).1.toNat).foldl
          (fun g _ => spawnPotionStep g)
          { gs with RNG := (numPotionsDraw gs.Level gs.RNG).2, Potions := [] } from rfl]
      rw [spawnPotionFold_length]
      have h2 : gs.RNG.stream gs.RNG.pos % 2 < 2 := Nat.mod_lt _ (by norm_num)
      simp only [numPotionsDraw, Rng.intn, List.length_nil, List.length_range,
        show Int.toNat 2 = 2 from rfl]
      omega
  · intro l1 l2 hl r
    simp only [numPotionsDraw]
    omega

theorem claim_C5_witness :
    1 ≤ baseState.Level ∧
      (∃ j : Int, 0 ≤ j ∧ j < 2 ∧
        (numPotionsDraw baseState.Level baseState.RNG).1 = (2 + baseState.Level) + j ∧
        ((spawnPotions baseState).Potions.length : Int) = (2 + baseState.Level) + j) ∧
      (1 : Int) < 2 ∧ (numPotionsDraw 1 baseState.RNG).1 < (numPotionsDraw 2 baseState.RNG).1 :=
  ⟨by decide, (claim_C5 baseState (by decide)).1, by decide,
    (claim_C5 baseState (by decide)).2 1 2 (by decide) baseState.RNG⟩

theorem advanceBy_advanceBy (r : Rng) (a b : Nat) :
    (r.advanceBy a).advanceBy b = r.advanceBy (a + b) := by
  simp only [Rng.advanceBy]
  congr 1
  omega

theorem rftCandidate_rng (gs : GameState) (rng : Rng) :
    (rftCandidate gs rng).2 = rng.advanceBy 3 := by
  simp only [rftCandidate, Rng.intn, Rng.advanceBy]

theorem rftLoop_accept (gs : GameState) (rng : Rng) (n : Nat) (hn : 0 < n)
    (hrooms : gs.Dungeon.Rooms ≠ [])
    (hacc : rftAccept gs (rftCandidate gs rng).1.1 (rftCandidate gs rng).1.2 = true) :
    rftLoop gs n rng = rftCandidate gs rng := by
  cases n with
  | zero => omega
  | succ n =>
    have hlen : ¬ gs.Dungeon.Rooms.length = 0 := by
      simpa [List.length_eq_zero] using hrooms
    simp only [rftLoop]
    rw [if_neg hlen, if_pos hacc]

theorem rftLoop_exhaust (gs : GameState) (hrooms : gs.Dungeon.Rooms ≠ []) :
    ∀ (n : Nat) (rng : Rng),
      (∀ k < n, rftAccept gs (rftCandidate gs (rng.advanceBy (3 * k))).1.1
        (rftCandidate gs (rng.advanceBy (3 * k))).1.2 = false) →
      (rftLoop gs n rng).1 = (gs.Dungeon.Width / 2, gs.Dungeon.Height / 2) := by
  have hlen : ¬ gs.Dungeon.Rooms.length = 0 := by
    simpa [List.length_eq_zero] using hrooms
  intro n
  induction n with
  | zero => intro rng _; rfl
  | succ n ih =>
    intro rng hfail
    have h0 : rftAccept gs (rftCandidate gs rng).1.1 (rftCandidate gs rng).1.2 = false :=
      hfail 0 (Nat.succ_pos n)
    simp only [rftLoop]
    rw [if_neg hlen, if_neg (by rw [h0]; exact Bool.false_ne_true)]
    rw [rftCandidate_rng]
    refine ih (rng.advanceBy 3) ?_
    intro k hk
    have he : (rng.advanceBy 3).advanceBy (3 * k) = rng.advanceBy (3 * (k + 1)) := by
      rw [advanceBy_advanceBy]
      congr 1
      omega
    rw [he]
    exact hfail (k + 1) (by omega)

/-- C10 (amended): spawn placement enforces no distinctness between spawned
entities — `randomFloorTile` rejects only the player's tile, the door tile
and the hazard-trap tile (never previously placed enemies or potions), on
retry exhaustion every placement falls back to the same grid-center tile,
and for some seed two spawned enemies occupy the same tile at level
start. -/
theorem claim_C10 :
    (∀ (gs : GameState) (rng : Rng) (n : Nat), 0 < n → gs.Dungeon.Rooms ≠ [] →
      gs.Dungeon.IsWalkable (rftCandidate gs rng).1.1 (rftCandidate gs rng).1.2 = true →
      (∀ p, gs.Player = some p →
        ¬((rftCandidate gs rng).1.1 = p.X ∧ (rftCandidate gs rng).1.2 = p.Y)) →
      ¬((rftCandidate gs rng).1.1 = gs.DoorX ∧ (rftCandidate gs rng).1.2 = gs.DoorY) →
      ¬((rftCandidate gs rng).1.1 = gs.MergeConflictX ∧
          (rftCandidate gs rng).1.2 = gs.MergeConflictY) →
      rftLoop gs n rng = rftCandidate gs rng) ∧
    (∀ (gs : GameState) (rng : Rng) (n : Nat), gs.Dungeon.Rooms ≠ [] →
      (∀ k < n, rftAccept gs (rftCandidate gs (rng.advanceBy (3 * k))).1.1
        (rftCandidate gs (rng.advanceBy (3 * k))).1.2 = false) →
      (rftLoop gs n rng).1 = (gs.Dungeon.Width / 2, gs.Dungeon.Height / 2)) ∧
    (((spawnEnemies gsD).Enemies.get? 0).map (fun e => (e.X, e.Y)) = some (3, 3) ∧
      ((spawnEnemies gsD).Enemies.get? 1).map (fun e => (e.X, e.Y)) = some (3, 3)) := by
  refine ⟨?_, ?_, by decide, by decide⟩
  · intro gs rng n hn hrooms hw hp hd ht
    refine rftLoop_accept gs rng n hn hrooms ?_
    cases hpl : gs.Player with
    | none =>
      simp [rftAccept, hpl, hw]
      tauto
    | some p =>
      have hpp := hp p hpl
      simp [rftAccept, hpl, hw]
      tauto
  · intro gs rng n hrooms hfail
    exact rftLoop_exhaust gs hrooms n rng hfail

/-- C10 counterexample to the claim as stated: in `gsT` the next candidate
tile (3,3) is walkable and is neither the player's tile nor the door tile,
yet `randomFloorTile` does not return it (it is the hazard-trap tile, which
the claim says is never rejected): the call returns (4,4) instead. -/
theorem claim_C10_cex :
    (rftCandidate gsT gsT.RNG).1 = (3, 3) ∧
      gsT.Dungeon.IsWalkable 3 3 = true ∧
      gsT.Player = some (NewPlayer 1 1) ∧
      ¬((3 : Int) = (NewPlayer 1 1).X ∧ (3 : Int) = (NewPlayer 1 1).Y) ∧
      ¬((3 : Int) = gsT.DoorX ∧ (3 : Int) = gsT.DoorY) ∧
      (randomFloorTile gsT).1 = (4, 4) ∧ (randomFloorTile gsT).1 ≠ (3, 3) := by
  refine ⟨by decide, by decide, by decide, by decide, by decide, by decide, by decide⟩

theorem claim_C10_witness :
    ((0 : Nat) < 100 ∧ gsD.Dungeon.Rooms ≠ [] ∧
      rftLoop gsD 100 gsD.RNG = rftCandidate gsD gsD.RNG) ∧
    (gsF.Dungeon.Rooms ≠ [] ∧
      (rftLoop gsF 100 gsF.RNG).1 = (gsF.Dungeon.Width / 2, gsF.Dungeon.Height / 2)) := by
  refine ⟨⟨by decide, by decide, ?_⟩, by decide, ?_⟩
  · exact claim_C10.1 gsD gsD.RNG 100 (by decide) (by decide) (by decide)
      (by intro p hp heq; rw [show p = NewPlayer 1 1 by
            simpa [gsD, baseState] using hp.symm] at heq; revert heq; decide)
      (by decide) (by decide)
  · exact claim_C10.2.1 gsF gsF.RNG 100 (by decide) (by decide)

theorem autoAttackStep_shape (g : GameState) (i : Nat) :
    ∃ es k m st, autoAttackStep g i
      = { g with Enemies := es, EnemiesKilled := k, Message := m, MessageStyle := st } := by
  unfold autoAttackStep
  split
  · split
    · split
      · exact ⟨_, _, _, _, rfl⟩
      · exact ⟨_, _, _, _, rfl⟩
    · exact ⟨_, _, _, _, rfl⟩
  · exact ⟨_, _, _, _, rfl⟩

theorem playerAutoAttack_shape (g : GameState) :
    ∃ es k m st, playerAutoAttack g
      = { g with Enemies := es, EnemiesKilled := k, Message := m, MessageStyle := st } := by
  unfold playerAutoAttack
  generalize List.range g.Enemies.length = l
  induction l generalizing g with
  | nil => exact ⟨_, _, _, _, rfl⟩
  | cons a l ih =>
    rw [List.foldl_cons]
    obtain ⟨es1, k1, m1, st1, h1⟩ := autoAttackStep_shape g a
    rw [h1]
    obtain ⟨es2, k2, m2, st2, h2⟩ := ih
      { g with Enemies := es1, EnemiesKilled := k1, Message := m1, MessageStyle := st1 }
    exact ⟨es2, k2, m2, st2, h2⟩

theorem moveEnemyStep_shape (g : GameState) (i : Nat) :
    ∃ es, moveEnemyStep g i = { g with Enemies := es } := by
  unfold moveEnemyStep
  split
  · split
    · exact ⟨_, rfl⟩
    · split
      · exact ⟨_, rfl⟩
      · exact ⟨_, rfl⟩
  · exact ⟨_, rfl⟩

theorem moveEnemies_shape (g : GameState) :
    ∃ es, moveEnemies g = { g with Enemies := es } := by
  unfold moveEnemies
  generalize List.range g.Enemies.length = l
  induction l generalizing g with
  | nil => exact ⟨_, rfl⟩
  | cons a l ih =>
    rw [List.foldl_cons]
    obtain ⟨es1, h1⟩ := moveEnemyStep_shape g a
    rw [h1]
    obtain ⟨es2, h2⟩ := ih { g with Enemies := es1 }
    exact ⟨es2, h2⟩

theorem enemyAttackStep_player (g : GameState) (i : Nat) (q : Entity)
    (hq : g.Player = some q) :
    ∃ q' m st kb, enemyAttackStep g i
        = { g with Player := some q', Message := m, MessageStyle := st, KilledBy := kb } ∧
      q'.X = q.X ∧ q'.Y = q.Y ∧ q'.MaxHP = q.MaxHP ∧ q'.type = q.type ∧
      q'.Damage = q.Damage ∧ (0 ≤ q.HP → 0 ≤ q'.HP) ∧
      ((∀ e ∈ g.Enemies, 0 ≤ e.Damage) → 0 ≤ q.HP → q'.HP ≤ q.HP) := by
  unfold enemyAttackStep
  split
  · next p e hp he =>
    obtain rfl : p = q := by rw [hq] at hp; exact (Option.some.inj hp).symm
    have hmem : e ∈ g.Enemies := by
      obtain ⟨hlt, hget⟩ := List.get?_eq_some.mp he
      exact hget ▸ List.get_mem _ _ _
    split
    · split
      · refine ⟨p.TakeDamage e.Damage, _, _, _, rfl, rfl, rfl, rfl, rfl, rfl, ?_, ?_⟩
        · intro h0
          simp only [Entity.TakeDamage]
          split <;> omega
        · intro hd h0
          have := hd e hmem
          simp only [Entity.TakeDamage]
          split <;> omega
      · refine ⟨p.TakeDamage e.Damage, _, _, _, rfl, rfl, rfl, rfl, rfl, rfl, ?_, ?_⟩
        · intro h0
          simp only [Entity.TakeDamage]
          split <;> omega
        · intro hd h0
          have := hd e hmem
          simp only [Entity.TakeDamage]
          split <;> omega
    · refine ⟨p, g.Message, g.MessageStyle, g.KilledBy, ?_, rfl, rfl, rfl, rfl, rfl,
        fun h0 => h0, fun _ _ => le_refl _⟩
      rw [← hq]
  · next hcatch =>
    refine ⟨q, g.Message, g.MessageStyle, g.KilledBy, ?_, rfl, rfl, rfl, rfl, rfl,
      fun h0 => h0, fun _ _ => le_refl _⟩
    rw [← hq]

theorem enemyAttacksFold_player (l : List Nat) : ∀ (g : GameState) (q : Entity),
    g.Player = some q →
    ∃ q' m st kb, l.foldl enemyAttackStep g
        = { g with Player := some q', Message := m, MessageStyle := st, KilledBy := kb } ∧
      q'.X = q.X ∧ q'.Y = q.Y ∧ q'.MaxHP = q.MaxHP ∧ q'.type = q.type ∧
      q'.Damage = q.Damage ∧ (0 ≤ q.HP → 0 ≤ q'.HP) ∧
      ((∀ e ∈ g.Enemies, 0 ≤ e.Damage) → 0 ≤ q.HP → q'.HP ≤ q.HP) := by
  induction l with
  | nil =>
    intro g q hq
    refine ⟨q, g.Message, g.MessageStyle, g.KilledBy, ?_, rfl, rfl, rfl, rfl, rfl,
      fun h => h, fun _ _ => le_refl _⟩
    rw [← hq]
    rfl
  | cons a l ih =>
    intro g q hq
    rw [List.foldl_cons]
    obtain ⟨q1, m1, st1, kb1, h1, hx1, hy1, hm1, ht1, hd1, hz1, hhp1⟩ :=
      enemyAttackStep_player g a q hq
    rw [h1]
    obtain ⟨q2, m2, st2, kb2, h2, hx2, hy2, hm2, ht2, hd2, hz2, hhp2⟩ :=
      ih { g with Player := some q1, Message := m1, MessageStyle := st1, KilledBy := kb1 }
        q1 rfl
    refine ⟨q2, m2, st2, kb2, h2, hx2.trans hx1, hy2.trans hy1, hm2.trans hm1,
      ht2.trans ht1, hd2.trans hd1, fun h0 => hz2 (hz1 h0), fun hd h0 => ?_⟩
    exact le_trans (hhp2 hd (hz1 h0)) (hhp1 hd h0)

theorem enemyAttacks_player (g : GameState) (q : Entity) (hq : g.Player = some q) :
    ∃ q' m st kb, enemyAttacks g
        = { g with Player := some q', Message := m, MessageStyle := st, KilledBy := kb } ∧
      q'.X = q.X ∧ q'.Y = q.Y ∧ q'.MaxHP = q.MaxHP ∧ q'.type = q.type ∧
      q'.Damage = q.Damage ∧ (0 ≤ q.HP → 0 ≤ q'.HP) ∧
      ((∀ e ∈ g.Enemies, 0 ≤ e.Damage) → 0 ≤ q.HP → q'.HP ≤ q.HP) := by
  unfold enemyAttacks
  split
  · refine ⟨q, g.Message, g.MessageStyle, g.KilledBy, ?_, rfl, rfl, rfl, rfl, rfl,
      fun h => h, fun _ _ => le_refl _⟩
    rw [← hq]
  · exact enemyAttacksFold_player (List.range g.Enemies.length) g q hq

theorem cmcEnter_shape (g : GameState) :
    ∃ b t mv sp r c, cmcEnter g
      = { g with OnMergeConflict := b, MergeConflictTriggered := t
                 MergeConflictMovements := mv, MergeConflictSpread := sp
                 RNG := r, ColorRotation := c } := by
  unfold cmcEnter generateMergeConflictSpread
  split
  · exact ⟨_, _, _, _, _, _, rfl⟩
  · exact ⟨_, _, _, _, _, _, rfl⟩

theorem checkMergeConflict_player (g : GameState) (q : Entity) (hq : g.Player = some q) :
    ∃ q' b t mv sp r c m st kb, checkMergeConflict g
        = { g with Player := some q', OnMergeConflict := b, MergeConflictTriggered := t
                   MergeConflictMovements := mv, MergeConflictSpread := sp, RNG := r
                   ColorRotation := c, Message := m, MessageStyle := st, KilledBy := kb } ∧
      q'.X = q.X ∧ q'.Y = q.Y ∧ q'.MaxHP = q.MaxHP ∧ q'.type = q.type ∧
      q'.Damage = q.Damage ∧ (0 ≤ q.HP → 0 ≤ q'.HP) ∧ (0 ≤ q.HP → q'.HP ≤ q.HP) := by
  unfold checkMergeConflict
  rw [hq]
  obtain ⟨b1, t1, mv1, sp1, r1, c1, hc⟩ := cmcEnter_shape g
  rw [hq] at hc
  show ∃ q' b t mv sp r c m st kb,
    (if q.X = g.MergeConflictX ∧ q.Y = g.MergeConflictY then _ else _) = _ ∧ _
  split
  · split
    · split
      · rw [hc]
        refine ⟨q.TakeDamage 1, _, _, _, _, _, _, _, _, _, rfl, rfl, rfl, rfl, rfl, rfl,
          ?_, ?_⟩
        · intro h0; simp only [Entity.TakeDamage]; split <;> omega
        · intro h0; simp only [Entity.TakeDamage]; split <;> omega
      · rw [hc]
        refine ⟨q.TakeDamage 1, _, _, _, _, _, _, _, _, _, rfl, rfl, rfl, rfl, rfl, rfl,
          ?_, ?_⟩
        · intro h0; simp only [Entity.TakeDamage]; split <;> omega
        · intro h0; simp only [Entity.TakeDamage]; split <;> omega
    · rw [GameState.setMessage, hc]
      exact ⟨q, _, _, _, _, _, _, _, _, _, rfl, rfl, rfl, rfl, rfl, rfl,
        fun h => h, fun _ => le_refl _⟩
  · split
    · split
      · exact ⟨q, _, _, _, _, _, _, _, _, _, by rw [← hq], rfl, rfl, rfl, rfl, rfl,
          fun h => h, fun _ => le_refl _⟩
      · exact ⟨q, _, _, _, _, _, _, _, _, _, by rw [← hq], rfl, rfl, rfl, rfl, rfl,
          fun h => h, fun _ => le_refl _⟩
    · exact ⟨q, _, _, _, _, _, _, _, _, _, by rw [← hq], rfl, rfl, rfl, rfl, rfl,
        fun h => h, fun _ => le_refl _⟩

theorem processTurnDeath_shape (g : GameState) :
    ∃ go m st, processTurnDeath g
      = { g with GameOver := go, Message := m, MessageStyle := st } := by
  unfold processTurnDeath GameState.setMessage
  split
  · exact ⟨_, _, _, rfl⟩
  · split
    · exact ⟨_, _, _, rfl⟩
    · exact ⟨_, _, _, rfl⟩

theorem processTurnEnd_shape (g : GameState) :
    ∃ go m st mv, processTurnEnd g
      = { g with GameOver := go, Message := m, MessageStyle := st
                 MergeConflictMovements := mv } := by
  unfold processTurnEnd
  split
  · obtain ⟨go, m, st, h⟩ := processTurnDeath_shape
      { g with MergeConflictMovements := g.MergeConflictMovements + 1 }
    rw [h]
    exact ⟨go, m, st, _, rfl⟩
  · obtain ⟨go, m, st, h⟩ := processTurnDeath_shape g
    rw [h]
    exact ⟨go, m, st, g.MergeConflictMovements, rfl⟩

theorem processTurn_player (g : GameState) (q : Entity) (hq : g.Player = some q) :
    ∃ q', (processTurn g).Player = some q' ∧ q'.X = q.X ∧ q'.Y = q.Y ∧
      (processTurn g).MoveCount = g.MoveCount := by
  unfold processTurn
  obtain ⟨es1, k1, m1, st1, h1⟩ := playerAutoAttack_shape g
  rw [h1]
  obtain ⟨q2, b2, t2, mv2, sp2, r2, c2, m2, st2, kb2, h2, hx2, hy2, _, _, _, _, _⟩ :=
    checkMergeConflict_player
      { g with Enemies := es1, EnemiesKilled := k1, Message := m1, MessageStyle := st1 }
      q hq
  rw [h2]
  obtain ⟨es3, h3⟩ := moveEnemies_shape
    { g with Enemies := es1, EnemiesKilled := k1, Message := m2, MessageStyle := st2
             Player := some q2, OnMergeConflict := b2, MergeConflictTriggered := t2
             MergeConflictMovements := mv2, MergeConflictSpread := sp2, RNG := r2
             ColorRotation := c2, KilledBy := kb2 }
  rw [h3]
  obtain ⟨q4, m4, st4, kb4, h4, hx4, hy4, _, _, _, _, _⟩ := enemyAttacks_player
    { g with Enemies := es3, EnemiesKilled := k1, Message := m2, MessageStyle := st2
             Player := some q2, OnMergeConflict := b2, MergeConflictTriggered := t2
             MergeConflictMovements := mv2, MergeConflictSpread := sp2, RNG := r2
             ColorRotation := c2, KilledBy := kb2 }
    q2 rfl
  rw [h4]
  obtain ⟨v5, e5, h5⟩ := updateVisibility_shape
    { g with Enemies := es3, EnemiesKilled := k1, Message := m4, MessageStyle := st4
             Player := some q4, OnMergeConflict := b2, MergeConflictTriggered := t2
             MergeConflictMovements := mv2, MergeConflictSpread := sp2, RNG := r2
             ColorRotation := c2, KilledBy := kb4 }
  rw [h5]
  obtain ⟨go6, m6, st6, mv6, h6⟩ := processTurnEnd_shape
    { g with Enemies := es3, EnemiesKilled := k1, Message := m4, MessageStyle := st4
             Player := some q4, OnMergeConflict := b2, MergeConflictTriggered := t2
             MergeConflictMovements := mv2, MergeConflictSpread := sp2, RNG := r2
             ColorRotation := c2, KilledBy := kb4, Visible := v5, Explored := e5 }
  rw [h6]
  exact ⟨q4, rfl, hx4.trans hx2, hy4.trans hy2, rfl⟩

theorem animApply_Player (g : GameState) : (animApply g).Player = g.Player := by
  unfold animApply
  split <;> rfl

theorem animApply_MoveCount (g : GameState) : (animApply g).MoveCount = g.MoveCount := by
  unfold animApply
  split <;> rfl

/-- C9: with a zero delta in a non-terminal state on a walkable tile (no
living enemy, potion, marker or door on the player's own tile), `MovePlayer
0 0` is not rejected: the player is "moved" onto their own tile, the move
counter is incremented, and the full turn phase (`processTurn`: auto-attack,
merge-conflict check, enemy movement, enemy attacks, visibility refresh,
death check) runs while the player's position is unchanged — a zero delta
silently costs a turn. -/
theorem claim_C9 (gs : GameState) (p : Entity)
    (hp : gs.Player = some p)
    (hgo : gs.GameOver = false) (hv : gs.Victory = false)
    (hw : gs.Dungeon.IsWalkable p.X p.Y = true)
    (hne : gs.Enemies.findIdx? (fun e => e.IsAlive && e.X == p.X && e.Y == p.Y) = none)
    (hnp : gs.Potions.findIdx? (fun q => q.X == p.X && q.Y == p.Y) = none)
    (hnm : ¬(p.X = gs.MergeMarkerX ∧ p.Y = gs.MergeMarkerY))
    (hnd : ¬(p.X = gs.DoorX ∧ p.Y = gs.DoorY)) :
    MovePlayer gs 0 0 = some (processTurn (animApply (moveApply gs p p.X p.Y))) ∧
      (processTurn (animApply (moveApply gs p p.X p.Y))).MoveCount = gs.MoveCount + 1 ∧
      (∃ q, (processTurn (animApply (moveApply gs p p.X p.Y))).Player = some q ∧
        q.X = p.X ∧ q.Y = p.Y) := by
  refine ⟨?_, ?_, ?_⟩
  · by_cases hanim : 0 < gs.MergeAffectedTiles.length
    · unfold MovePlayer moveApply animApply pickupPotion markerApply doorApply
      simp only [hp, hgo, hv, Bool.or_self, Bool.false_eq_true, reduceIte,
        Int.add_zero, hw, not_true, hne, hnp, hnm, hnd, hanim, if_true, if_false]
    · unfold MovePlayer moveApply animApply pickupPotion markerApply doorApply
      simp only [hp, hgo, hv, Bool.or_self, Bool.false_eq_true, reduceIte,
        Int.add_zero, hw, not_true, hne, hnp, hnm, hnd, hanim, if_true, if_false]
  · obtain ⟨q', hq', hx, hy, hmc⟩ := processTurn_player (animApply (moveApply gs p p.X p.Y))
      { p with X := p.X, Y := p.Y } (by rw [animApply_Player]; rfl)
    rw [hmc, animApply_MoveCount]
    rfl
  · obtain ⟨q', hq', hx, hy, hmc⟩ := processTurn_player (animApply (moveApply gs p p.X p.Y))
      { p with X := p.X, Y := p.Y } (by rw [animApply_Player]; rfl)
    exact ⟨q', hq', hx, hy⟩

theorem claim_C9_witness :
    (baseState.Player = some (NewPlayer 3 3) ∧
      baseState.Dungeon.IsWalkable (NewPlayer 3 3).X (NewPlayer 3 3).Y = true ∧
      ¬((NewPlayer 3 3).X = baseState.MergeMarkerX ∧
          (NewPlayer 3 3).Y = baseState.MergeMarkerY) ∧
      ¬((NewPlayer 3 3).X = baseState.DoorX ∧ (NewPlayer 3 3).Y = baseState.DoorY)) ∧
      MovePlayer baseState 0 0
        = some (processTurn (animApply
            (moveApply baseState (NewPlayer 3 3) (NewPlayer 3 3).X (NewPlayer 3 3).Y))) ∧
      (processTurn (animApply
          (moveApply baseState (NewPlayer 3 3) (NewPlayer 3 3).X
            (NewPlayer 3 3).Y))).MoveCount = baseState.MoveCount + 1 :=
  ⟨⟨rfl, by decide, by decide, by decide⟩,
    (claim_C9 baseState (NewPlayer 3 3) rfl rfl rfl (by decide) rfl rfl
      (by decide) (by decide)).1,
    (claim_C9 baseState (NewPlayer 3 3) rfl rfl rfl (by decide) rfl rfl
      (by decide) (by decide)).2.1⟩

theorem bumpDeath_shape (g : GameState) :
    ∃ go m st, bumpDeath g = { g with GameOver := go, Message := m, MessageStyle := st } := by
  unfold bumpDeath
  split
  · exact ⟨_, _, _, rfl⟩
  · exact ⟨_, _, _, rfl⟩

theorem bumpHit_facts (gs : GameState) (p : Entity) (i : Nat) (e : Entity)
    (he : gs.Enemies.get? i = some e) :
    ∃ m st, bumpHit gs p i
      = { gs with Enemies := gs.Enemies.set i (e.TakeDamage p.Damage)
                  EnemiesKilled := gs.EnemiesKilled
                    + (if (e.TakeDamage p.Damage).IsAlive then 0 else 1)
                  Message := m, MessageStyle := st } := by
  unfold bumpHit
  split
  · next hnone => rw [he] at hnone; exact absurd hnone (by simp)
  · next e2 heq =>
    rw [he] at heq
    obtain rfl : e = e2 := Option.some.inj heq
    split
    · next hdead =>
      exact ⟨_, _, rfl⟩
    · next halive =>
      rw [if_pos (not_not.mp halive), Int.add_zero]
      exact ⟨_, _, rfl⟩

/-- C7: when a living enemy occupies the target tile of a move in a
non-terminal state, the call resolves as a bump attack: the first such
enemy takes the player's damage, the kill counter increments exactly when
that enemy dies of it, the enemy phase (enemy movement then enemy attacks)
and a visibility refresh run followed by the player-death check
(`bumpResolve`), and the player's position and move counter are
unchanged. -/
theorem claim_C7 (gs : GameState) (p : Entity) (dx dy : Int) (i : Nat) (e : Entity)
    (hp : gs.Player = some p)
    (hgo : gs.GameOver = false) (hv : gs.Victory = false)
    (hw : gs.Dungeon.IsWalkable (p.X + dx) (p.Y + dy) = true)
    (hfind : gs.Enemies.findIdx?
      (fun e' => e'.IsAlive && e'.X == p.X + dx && e'.Y == p.Y + dy) = some i)
    (he : gs.Enemies.get? i = some e) :
    MovePlayer gs dx dy = some (bumpResolve gs p i) ∧
      (bumpHit gs p i).Enemies.get? i = some (e.TakeDamage p.Damage) ∧
      (∃ q, (bumpResolve gs p i).Player = some q ∧ q.X = p.X ∧ q.Y = p.Y) ∧
      (bumpResolve gs p i).EnemiesKilled
        = gs.EnemiesKilled + (if (e.TakeDamage p.Damage).IsAlive then 0 else 1) ∧
      (bumpResolve gs p i).MoveCount = gs.MoveCount := by
  obtain ⟨m1, st1, h1⟩ := bumpHit_facts gs p i e he
  have hlt : i < gs.Enemies.length := (List.get?_eq_some.mp he).1
  refine ⟨?_, ?_, ?_⟩
  · unfold MovePlayer
    simp only [hp, hgo, hv, Bool.or_self, Bool.false_eq_true, reduceIte, hw,
      not_true, hfind]
  · rw [h1]
    exact List.get?_set_eq_of_lt _ (by simpa using hlt)
  · unfold bumpResolve
    rw [h1]
    obtain ⟨es3, h3⟩ := moveEnemies_shape
      { gs with Enemies := gs.Enemies.set i (e.TakeDamage p.Damage)
                EnemiesKilled := gs.EnemiesKilled
                  + (if (e.TakeDamage p.Damage).IsAlive then 0 else 1)
                Message := m1, MessageStyle := st1 }
    rw [h3]
    obtain ⟨q4, m4, st4, kb4, h4, hx4, hy4, _, _, _, _, _⟩ := enemyAttacks_player
      { gs with Enemies := es3
                EnemiesKilled := gs.EnemiesKilled
                  + (if (e.TakeDamage p.Damage).IsAlive then 0 else 1)
                Message := m1, MessageStyle := st1 }
      p hp
    rw [h4]
    obtain ⟨v5, e5, h5⟩ := updateVisibility_shape
      { gs with Enemies := es3
                EnemiesKilled := gs.EnemiesKilled
                  + (if (e.TakeDamage p.Damage).IsAlive then 0 else 1)
                Message := m4, MessageStyle := st4, Player := some q4, KilledBy := kb4 }
    rw [h5]
    obtain ⟨go6, m6, st6, h6⟩ := bumpDeath_shape
      { gs with Enemies := es3
                EnemiesKilled := gs.EnemiesKilled
                  + (if (e.TakeDamage p.Damage).IsAlive then 0 else 1)
                Message := m4, MessageStyle := st4, Player := some q4, KilledBy := kb4
                Visible := v5, Explored := e5 }
    rw [h6]
    exact ⟨⟨q4, rfl, hx4, hy4⟩, rfl, rfl⟩

theorem claim_C7_witness :
    (({ baseState with Enemies := [NewBug 4 3] } : GameState).Dungeon.IsWalkable
        ((NewPlayer 3 3).X + 1) ((NewPlayer 3 3).Y + 0) = true ∧
      ({ baseState with Enemies := [NewBug 4 3] } : GameState).Enemies.findIdx?
        (fun e' => e'.IsAlive && e'.X == (NewPlayer 3 3).X + 1
          && e'.Y == (NewPlayer 3 3).Y + 0) = some 0) ∧
      MovePlayer { baseState with Enemies := [NewBug 4 3] } 1 0
        = some (bumpResolve { baseState with Enemies := [NewBug 4 3] } (NewPlayer 3 3) 0) ∧
      (bumpResolve { baseState with Enemies := [NewBug 4 3] } (NewPlayer 3 3) 0).EnemiesKilled
        = ({ baseState with Enemies := [NewBug 4 3] } : GameState).EnemiesKilled
          + (if ((NewBug 4 3).TakeDamage (NewPlayer 3 3).Damage).IsAlive then 0 else 1) :=
  ⟨⟨by decide, by decide⟩,
    (claim_C7 { baseState with Enemies := [NewBug 4 3] } (NewPlayer 3 3) 1 0 0 (NewBug 4 3)
      rfl rfl rfl (by decide) (by decide) rfl).1,
    (claim_C7 { baseState with Enemies := [NewBug 4 3] } (NewPlayer 3 3) 1 0 0 (NewBug 4 3)
      rfl rfl rfl (by decide) (by decide) rfl).2.2.2.1⟩

theorem autoAttackStep_damage (g : GameState) (i : Nat)
    (hd : ∀ e ∈ g.Enemies, 0 ≤ e.Damage) :
    ∀ e ∈ (autoAttackStep g i).Enemies, 0 ≤ e.Damage := by
  unfold autoAttackStep
  split
  · next p e hp he =>
    have hmem : e ∈ g.Enemies := by
      obtain ⟨hlt, hget⟩ := List.get?_eq_some.mp he
      exact hget ▸ List.get_mem _ _ _
    split
    · split <;>
      · intro f hf
        rcases List.mem_or_eq_of_mem_set hf with hf | rfl
        · exact hd f hf
        · simpa [Entity.TakeDamage] using hd e hmem
    · exact hd
  · exact hd

theorem playerAutoAttack_damage (g : GameState)
    (hd : ∀ e ∈ g.Enemies, 0 ≤ e.Damage) :
    ∀ e ∈ (playerAutoAttack g).Enemies, 0 ≤ e.Damage := by
  unfold playerAutoAttack
  generalize List.range g.Enemies.length = l
  induction l generalizing g with
  | nil => exact hd
  | cons a l ih =>
    rw [List.foldl_cons]
    exact ih (autoAttackStep g a) (autoAttackStep_damage g a hd)

theorem ite_damage {c : Prop} [Decidable c] {a b : Entity}
    (ha : 0 ≤ a.Damage) (hb : 0 ≤ b.Damage) : 0 ≤ (if c then a else b).Damage := by
  split
  · exact ha
  · exact hb

theorem moveEnemyStep_damage (g : GameState) (i : Nat)
    (hd : ∀ e ∈ g.Enemies, 0 ≤ e.Damage) :
    ∀ e ∈ (moveEnemyStep g i).Enemies, 0 ≤ e.Damage := by
  unfold moveEnemyStep
  split
  · next p e hp he =>
    have hmem : e ∈ g.Enemies := by
      obtain ⟨hlt, hget⟩ := List.get?_eq_some.mp he
      exact hget ▸ List.get_mem _ _ _
    split
    · exact hd
    · split
      · exact hd
      · intro f hf
        rcases List.mem_or_eq_of_mem_set hf with hf | rfl
        · exact hd f hf
        · have hde := hd e hmem
          have hE1 : 0 ≤ ((if canEnemyMoveTo g (e.X + (if e.X < p.X then 1 else if p.X < e.X then -1 else 0))
                (e.Y + (if e.Y < p.Y then 1 else if p.Y < e.Y then -1 else 0)) i then
              { e with X := e.X + (if e.X < p.X then 1 else if p.X < e.X then -1 else 0),
                       Y := e.Y + (if e.Y < p.Y then 1 else if p.Y < e.Y then -1 else 0) }
            else if (if e.X < p.X then 1 else if p.X < e.X then -1 else 0) ≠ 0
                && canEnemyMoveTo g (e.X + (if e.X < p.X then 1 else if p.X < e.X then -1 else 0)) e.Y i then
              { e with X := e.X + (if e.X < p.X then 1 else if p.X < e.X then -1 else 0) }
            else if (if e.Y < p.Y then 1 else if p.Y < e.Y then -1 else 0) ≠ 0
                && canEnemyMoveTo g e.X (e.Y + (if e.Y < p.Y then 1 else if p.Y < e.Y then -1 else 0)) i then
              { e with Y := e.Y + (if e.Y < p.Y then 1 else if p.Y < e.Y then -1 else 0) }
            else e) : Entity).Damage :=
            ite_damage hde (ite_damage hde (ite_damage hde hde))
          exact ite_damage (by simpa [Entity.TakeDamage] using hE1) hE1
  · exact hd

theorem moveEnemies_damage (g : GameState)
    (hd : ∀ e ∈ g.Enemies, 0 ≤ e.Damage) :
    ∀ e ∈ (moveEnemies g).Enemies, 0 ≤ e.Damage := by
  unfold moveEnemies
  generalize List.range g.Enemies.length = l
  induction l generalizing g with
  | nil => exact hd
  | cons a l ih =>
    rw [List.foldl_cons]
    exact ih (moveEnemyStep g a) (moveEnemyStep_damage g a hd)

theorem cmcEnter_trigger (g : GameState) (hOn : g.OnMergeConflict = false) :
    ∃ sp r, cmcEnter g
      = { g with OnMergeConflict := true, MergeConflictTriggered := true
                 MergeConflictMovements := 0, MergeConflictSpread := sp, RNG := r
                 ColorRotation := g.ColorRotation + 1 } := by
  unfold cmcEnter generateMergeConflictSpread
  rw [if_pos (by simp [hOn])]
  exact ⟨_, _, rfl⟩

theorem checkMergeConflict_trigger (g : GameState) (q : Entity)
    (hq : g.Player = some q)
    (hx : q.X = g.MergeConflictX) (hy : q.Y = g.MergeConflictY)
    (hOn : g.OnMergeConflict = false) (hInv : g.Invulnerable = false) :
    ∃ sp r kb, checkMergeConflict g
      = { g with Player := some (q.TakeDamage 1)
                 OnMergeConflict := true, MergeConflictTriggered := true
                 MergeConflictMovements := 0, MergeConflictSpread := sp, RNG := r
                 ColorRotation := g.ColorRotation + 1
                 Message := "- 1 HP damage", MessageStyle := .redBold
                 KilledBy := kb } := by
  obtain ⟨sp, r, hc⟩ := cmcEnter_trigger g hOn
  simp only [checkMergeConflict, hq]
  rw [if_pos ⟨hx, hy⟩, if_pos (show ¬ g.Invulnerable = true by simp [hInv])]
  by_cases hdead : (q.TakeDamage 1).IsAlive = true
  · rw [if_neg (show ¬¬ (q.TakeDamage 1).IsAlive = true from not_not.mpr hdead), hc]
    exact ⟨sp, r, g.KilledBy, rfl⟩
  · rw [if_pos hdead, hc]
    exact ⟨sp, r, "merge_conflict", rfl⟩

theorem checkMergeConflict_trigger_invuln (g : GameState) (q : Entity)
    (hq : g.Player = some q)
    (hx : q.X = g.MergeConflictX) (hy : q.Y = g.MergeConflictY)
    (hOn : g.OnMergeConflict = false) (hInv : g.Invulnerable = true) :
    ∃ sp r, checkMergeConflict g
      = { g with OnMergeConflict := true, MergeConflictTriggered := true
                 MergeConflictMovements := 0, MergeConflictSpread := sp, RNG := r
                 ColorRotation := g.ColorRotation + 1
                 Message := "The merge conflict burns around you, but your invulnerability protects you!"
                 MessageStyle := .default } := by
  obtain ⟨sp, r, hc⟩ := cmcEnter_trigger g hOn
  simp only [checkMergeConflict, hq, GameState.setMessage]
  rw [if_pos ⟨hx, hy⟩, if_neg (show ¬¬ g.Invulnerable = true by simp [hInv]), hc]
  refine ⟨sp, r, ?_⟩
  simp only [hq]

theorem enemyAttacks_invuln (g : GameState) (hInv : g.Invulnerable = true) :
    enemyAttacks g = g := by
  unfold enemyAttacks
  rw [if_pos hInv]

theorem movePlayer_plain (gs : GameState) (p : Entity) (dx dy : Int)
    (hp : gs.Player = some p)
    (hgo : gs.GameOver = false) (hv : gs.Victory = false)
    (hw : gs.Dungeon.IsWalkable (p.X + dx) (p.Y + dy) = true)
    (hne : gs.Enemies.findIdx?
      (fun e => e.IsAlive && e.X == p.X + dx && e.Y == p.Y + dy) = none)
    (hnp : gs.Potions.findIdx? (fun q => q.X == p.X + dx && q.Y == p.Y + dy) = none)
    (hnm : ¬(p.X + dx = gs.MergeMarkerX ∧ p.Y + dy = gs.MergeMarkerY))
    (hnd : ¬(p.X + dx = gs.DoorX ∧ p.Y + dy = gs.DoorY)) :
    MovePlayer gs dx dy
      = some (processTurn (animApply (moveApply gs p (p.X + dx) (p.Y + dy)))) := by
  by_cases hanim : 0 < gs.MergeAffectedTiles.length
  · unfold MovePlayer moveApply animApply pickupPotion markerApply doorApply
    simp only [hp, hgo, hv, Bool.or_self, Bool.false_eq_true, reduceIte, hw,
      not_true, hne, hnp, hnm, hnd, hanim, if_true, if_false]
  · unfold MovePlayer moveApply animApply pickupPotion markerApply doorApply
    simp only [hp, hgo, hv, Bool.or_self, Bool.false_eq_true, reduceIte, hw,
      not_true, hne, hnp, hnm, hnd, hanim, if_true, if_false]

theorem animApply_shape (g : GameState) :
    ∃ a, animApply g = { g with MergeAnimationStep := a } := by
  unfold animApply
  split
  · exact ⟨_, rfl⟩
  · exact ⟨_, rfl⟩

theorem processTurn_trigger (g : GameState) (q : Entity) (hq : g.Player = some q)
    (hx : q.X = g.MergeConflictX) (hy : q.Y = g.MergeConflictY)
    (hOn : g.OnMergeConflict = false) (hInv : g.Invulnerable = false)
    (hhp : 1 ≤ q.HP) (hd : ∀ e ∈ g.Enemies, 0 ≤ e.Damage) :
    ∃ q', (processTurn g).Player = some q' ∧
      (processTurn g).MergeConflictTriggered = true ∧ q'.HP ≤ q.HP - 1 := by
  have hq2 : (q.TakeDamage 1).HP = q.HP - 1 := by
    show (if q.HP - 1 < 0 then (0 : Int) else q.HP - 1) = q.HP - 1
    rw [if_neg (by omega)]
  unfold processTurn
  obtain ⟨es1, k1, m1, st1, h1⟩ := playerAutoAttack_shape g
  have hd1 : ∀ e ∈ (playerAutoAttack g).Enemies, 0 ≤ e.Damage :=
    playerAutoAttack_damage g hd
  rw [h1] at hd1
  rw [h1]
  obtain ⟨sp2, r2, kb2, h2⟩ := checkMergeConflict_trigger
    { g with Enemies := es1, EnemiesKilled := k1, Message := m1, MessageStyle := st1 }
    q hq hx hy hOn hInv
  rw [h2]
  have hd2 : ∀ e ∈ (moveEnemies
      { g with Enemies := es1, EnemiesKilled := k1, Message := "- 1 HP damage"
               MessageStyle := MsgStyle.redBold, Player := some (q.TakeDamage 1)
               OnMergeConflict := true, MergeConflictTriggered := true
               MergeConflictMovements := 0, MergeConflictSpread := sp2, RNG := r2
               ColorRotation := g.ColorRotation + 1, KilledBy := kb2 }).Enemies,
      0 ≤ e.Damage :=
    moveEnemies_damage _ hd1
  obtain ⟨es3, h3⟩ := moveEnemies_shape
    { g with Enemies := es1, EnemiesKilled := k1, Message := "- 1 HP damage"
             MessageStyle := MsgStyle.redBold, Player := some (q.TakeDamage 1)
             OnMergeConflict := true, MergeConflictTriggered := true
             MergeConflictMovements := 0, MergeConflictSpread := sp2, RNG := r2
             ColorRotation := g.ColorRotation + 1, KilledBy := kb2 }
  rw [h3] at hd2
  rw [h3]
  obtain ⟨q4, m4, st4, kb4, h4, _, _, _, _, _, _, hmono⟩ := enemyAttacks_player
    { g with Enemies := es3, EnemiesKilled := k1, Message := "- 1 HP damage"
             MessageStyle := MsgStyle.redBold, Player := some (q.TakeDamage 1)
             OnMergeConflict := true, MergeConflictTriggered := true
             MergeConflictMovements := 0, MergeConflictSpread := sp2, RNG := r2
             ColorRotation := g.ColorRotation + 1, KilledBy := kb2 }
    (q.TakeDamage 1) rfl
  rw [h4]
  obtain ⟨v5, e5, h5⟩ := updateVisibility_shape
    { g with Enemies := es3, EnemiesKilled := k1, Message := m4, MessageStyle := st4
             Player := some q4, OnMergeConflict := true, MergeConflictTriggered := true
             MergeConflictMovements := 0, MergeConflictSpread := sp2, RNG := r2
             ColorRotation := g.ColorRotation + 1, KilledBy := kb4 }
  rw [h5]
  obtain ⟨go6, m6, st6, mv6, h6⟩ := processTurnEnd_shape
    { g with Enemies := es3, EnemiesKilled := k1, Message := m4, MessageStyle := st4
             Player := some q4, OnMergeConflict := true, MergeConflictTriggered := true
             MergeConflictMovements := 0, MergeConflictSpread := sp2, RNG := r2
             ColorRotation := g.ColorRotation + 1, KilledBy := kb4
             Visible := v5, Explored := e5 }
  rw [h6]
  have hle : q4.HP ≤ (q.TakeDamage 1).HP := hmono hd2 (by omega)
  rw [hq2] at hle
  exact ⟨q4, rfl, rfl, hle⟩

theorem processTurn_trigger_invuln (g : GameState) (q : Entity)
    (hq : g.Player = some q)
    (hx : q.X = g.MergeConflictX) (hy : q.Y = g.MergeConflictY)
    (hOn : g.OnMergeConflict = false) (hInv : g.Invulnerable = true) :
    (processTurn g).Player = some q ∧ (processTurn g).MergeConflictTriggered = true := by
  unfold processTurn
  obtain ⟨es1, k1, m1, st1, h1⟩ := playerAutoAttack_shape g
  rw [h1]
  obtain ⟨sp2, r2, h2⟩ := checkMergeConflict_trigger_invuln
    { g with Enemies := es1, EnemiesKilled := k1, Message := m1, MessageStyle := st1 }
    q hq hx hy hOn hInv
  rw [h2]
  obtain ⟨es3, h3⟩ := moveEnemies_shape
    { g with Enemies := es1, EnemiesKilled := k1
             Message := "The merge conflict burns around you, but your invulnerability protects you!"
             MessageStyle := MsgStyle.default, OnMergeConflict := true
             MergeConflictTriggered := true, MergeConflictMovements := 0
             MergeConflictSpread := sp2, RNG := r2, ColorRotation := g.ColorRotation + 1 }
  rw [h3]
  rw [enemyAttacks_invuln
    { g with Enemies := es3, EnemiesKilled := k1
             Message := "The merge conflict burns around you, but your invulnerability protects you!"
             MessageStyle := MsgStyle.default, OnMergeConflict := true
             MergeConflictTriggered := true, MergeConflictMovements := 0
             MergeConflictSpread := sp2, RNG := r2, ColorRotation := g.ColorRotation + 1 }
    hInv]
  obtain ⟨v5, e5, h5⟩ := updateVisibility_shape
    { g with Enemies := es3, EnemiesKilled := k1
             Message := "The merge conflict burns around you, but your invulnerability protects you!"
             MessageStyle := MsgStyle.default, OnMergeConflict := true
             MergeConflictTriggered := true, MergeConflictMovements := 0
             MergeConflictSpread := sp2, RNG := r2, ColorRotation := g.ColorRotation + 1 }
  rw [h5]
  obtain ⟨go6, m6, st6, mv6, h6⟩ := processTurnEnd_shape
    { g with Enemies := es3, EnemiesKilled := k1
             Message := "The merge conflict burns around you, but your invulnerability protects you!"
             MessageStyle := MsgStyle.default, OnMergeConflict := true
             MergeConflictTriggered := true, MergeConflictMovements := 0
             MergeConflictSpread := sp2, RNG := r2, ColorRotation := g.ColorRotation + 1
             Visible := v5, Explored := e5 }
  rw [h6]
  exact ⟨hq, rfl⟩

/-- C4 (amended): a plain move that lands exactly on the level's
merge-conflict trap tile marks the trap triggered that same turn, and —
when Konami-code invulnerability is NOT active — the player takes the
first-contact damage: the resulting HP is at most the starting HP minus 1.
(With invulnerability active the trap still triggers but no damage
is taken; see the counterexample to the unconditional claim.) -/
theorem claim_C4 (gs : GameState) (p : Entity) (dx dy : Int)
    (hp : gs.Player = some p)
    (hgo : gs.GameOver = false) (hv : gs.Victory = false)
    (hw : gs.Dungeon.IsWalkable (p.X + dx) (p.Y + dy) = true)
    (hne : gs.Enemies.findIdx?
      (fun e => e.IsAlive && e.X == p.X + dx && e.Y == p.Y + dy) = none)
    (hnp : gs.Potions.findIdx? (fun q => q.X == p.X + dx && q.Y == p.Y + dy) = none)
    (hnm : ¬(p.X + dx = gs.MergeMarkerX ∧ p.Y + dy = gs.MergeMarkerY))
    (hnd : ¬(p.X + dx = gs.DoorX ∧ p.Y + dy = gs.DoorY))
    (htx : p.X + dx = gs.MergeConflictX) (hty : p.Y + dy = gs.MergeConflictY)
    (hOn : gs.OnMergeConflict = false) (hInv : gs.Invulnerable = false)
    (hhp : 1 ≤ p.HP) (hd : ∀ e ∈ gs.Enemies, 0 ≤ e.Damage) :
    ∃ g', MovePlayer gs dx dy = some g' ∧ g'.MergeConflictTriggered = true ∧
      ∃ q, g'.Player = some q ∧ q.HP ≤ p.HP - 1 := by
  rw [movePlayer_plain gs p dx dy hp hgo hv hw hne hnp hnm hnd]
  obtain ⟨a1, h1⟩ := animApply_shape (moveApply gs p (p.X + dx) (p.Y + dy))
  rw [h1]
  obtain ⟨q', hPl, hTr, hHp⟩ := processTurn_trigger
    { moveApply gs p (p.X + dx) (p.Y + dy) with MergeAnimationStep := a1 }
    { p with X := p.X + dx, Y := p.Y + dy } rfl htx hty hOn hInv hhp hd
  exact ⟨_, rfl, hTr, q', hPl, hHp⟩

theorem claim_C4_witness :
    (({ baseState with MergeConflictX := 4, MergeConflictY := 3 }
        : GameState).Dungeon.IsWalkable ((NewPlayer 3 3).X + 1) ((NewPlayer 3 3).Y + 0)
        = true ∧
      1 ≤ (NewPlayer 3 3).HP) ∧
    ∃ g', MovePlayer { baseState with MergeConflictX := 4, MergeConflictY := 3 } 1 0
        = some g' ∧
      g'.MergeConflictTriggered = true ∧
      ∃ q, g'.Player = some q ∧ q.HP ≤ (NewPlayer 3 3).HP - 1 :=
  ⟨⟨by decide, by decide⟩,
    claim_C4 { baseState with MergeConflictX := 4, MergeConflictY := 3 }
      (NewPlayer 3 3) 1 0 rfl rfl rfl (by decide) rfl rfl (by decide) (by decide)
      (by decide) (by decide) rfl rfl (by decide)
      (fun e he => absurd he (List.not_mem_nil e))⟩

/-- C4 counterexample to the unconditional claim: with Konami-code
invulnerability active, stepping onto the trap tile still marks the trap
triggered, but the player takes NO damage — HP is unchanged. -/
theorem claim_C4_cex :
    ∃ g', MovePlayer
        { baseState with MergeConflictX := 4, MergeConflictY := 3
                         Invulnerable := true } 1 0 = some g' ∧
      g'.MergeConflictTriggered = true ∧
      ∃ q, g'.Player = some q ∧ q.HP = (NewPlayer 3 3).HP := by
  have hmp := movePlayer_plain
    { baseState with MergeConflictX := 4, MergeConflictY := 3, Invulnerable := true }
    (NewPlayer 3 3) 1 0 rfl rfl rfl (by decide) rfl rfl (by decide) (by decide)
  have ha : animApply (moveApply
      { baseState with MergeConflictX := 4, MergeConflictY := 3, Invulnerable := true }
      (NewPlayer 3 3) ((NewPlayer 3 3).X + 1) ((NewPlayer 3 3).Y + 0))
      = moveApply
        { baseState with MergeConflictX := 4, MergeConflictY := 3, Invulnerable := true }
        (NewPlayer 3 3) ((NewPlayer 3 3).X + 1) ((NewPlayer 3 3).Y + 0) := rfl
  obtain ⟨hPl, hTr⟩ := processTurn_trigger_invuln
    (moveApply
      { baseState with MergeConflictX := 4, MergeConflictY := 3, Invulnerable := true }
      (NewPlayer 3 3) ((NewPlayer 3 3).X + 1) ((NewPlayer 3 3).Y + 0))
    { NewPlayer 3 3 with X := 4, Y := 3 } (by rfl) rfl rfl rfl rfl
  refine ⟨processTurn (moveApply
      { baseState with MergeConflictX := 4, MergeConflictY := 3, Invulnerable := true }
      (NewPlayer 3 3) ((NewPlayer 3 3).X + 1) ((NewPlayer 3 3).Y + 0)),
    ?_, hTr, { NewPlayer 3 3 with X := 4, Y := 3 }, hPl, rfl⟩
  rw [hmp, ha]

theorem intn_nonneg (r : Rng) (n : Int) : 0 ≤ (r.intn n).1 := by
  unfold Rng.intn
  exact Int.natCast_nonneg _

theorem intn_lt (r : Rng) (n : Int) (hn : 0 < n) : (r.intn n).1 < n := by
  unfold Rng.intn
  have h1 : r.stream r.pos % n.toNat < n.toNat := Nat.mod_lt _ (by omega)
  show ((r.stream r.pos % n.toNat : Nat) : Int) < n
  omega

theorem craMaxDim_bounds (extent : Int) (h : 8 ≤ extent) :
    MinRoomSize ≤ craMaxDim extent ∧ craMaxDim extent ≤ extent - 2 := by
  have hm : MinRoomSize = 6 := rfl
  have hM : MaxRoomSize = 15 := rfl
  unfold craMaxDim
  split <;> constructor <;> omega

theorem crDim_bounds (maxD : Int) (rng : Rng) (h6 : MinRoomSize ≤ maxD) :
    MinRoomSize ≤ (crDim maxD rng).1 ∧ (crDim maxD rng).1 ≤ maxD := by
  have hm : MinRoomSize = 6 := rfl
  unfold crDim
  split
  · next hlt =>
    have ha := intn_nonneg rng (maxD - MinRoomSize + 1)
    have hb := intn_lt rng (maxD - MinRoomSize + 1) (by omega)
    constructor <;> · dsimp only; omega
  · constructor <;> · dsimp only; omega

theorem crPos_bounds (base extent roomD : Int) (rng : Rng) (hle : roomD ≤ extent - 2) :
    base + 1 ≤ (crPos base extent roomD rng).1 ∧
    (crPos base extent roomD rng).1 + roomD ≤ base + extent - 1 := by
  unfold crPos
  split
  · next hlt =>
    have ha := intn_nonneg rng (extent - roomD - 1)
    have hb := intn_lt rng (extent - roomD - 1) (by omega)
    constructor <;> · dsimp only; omega
  · constructor <;> · dsimp only; omega

theorem splitOffset_bounds (maxSize : Int) (rng : Rng) (h : MinRoomSize < maxSize) :
    MinRoomSize ≤ (splitOffset maxSize rng).1 ∧ (splitOffset maxSize rng).1 < maxSize := by
  have hm : MinRoomSize = 6 := rfl
  unfold splitOffset
  have ha := intn_nonneg rng (maxSize - MinRoomSize)
  have hb := intn_lt rng (maxSize - MinRoomSize) (by omega)
  constructor <;> · dsimp only; omega

theorem createRoomAt_ok (x y w h : Int) (rng : Rng) (hw : 8 ≤ w) (hh : 8 ≤ h) :
    MinRoomSize ≤ (createRoomAt x y w h rng).1.W ∧
    MinRoomSize ≤ (createRoomAt x y w h rng).1.H ∧
    x + 1 ≤ (createRoomAt x y w h rng).1.X ∧
    y + 1 ≤ (createRoomAt x y w h rng).1.Y ∧
    (createRoomAt x y w h rng).1.X + (createRoomAt x y w h rng).1.W ≤ x + w - 1 ∧
    (createRoomAt x y w h rng).1.Y + (createRoomAt x y w h rng).1.H ≤ y + h - 1 := by
  have hcw := craMaxDim_bounds w hw
  have hch := craMaxDim_bounds h hh
  have h1 := crDim_bounds (craMaxDim w) rng hcw.1
  have h2 := crDim_bounds (craMaxDim h) (crDim (craMaxDim w) rng).2 hch.1
  have h3 := crPos_bounds x w (crDim (craMaxDim w) rng).1
    (crDim (craMaxDim h) (crDim (craMaxDim w) rng).2).2 (by omega)
  have h4 := crPos_bounds y h (crDim (craMaxDim h) (crDim (craMaxDim w) rng).2).1
    (crPos x w (crDim (craMaxDim w) rng).1
      (crDim (craMaxDim h) (crDim (craMaxDim w) rng).2).2).2 (by omega)
  exact ⟨h1.1, h2.1, h3.1, h4.1, h3.2, h4.2⟩

theorem nodeWithin_mono : ∀ (n : BSPNode) {X Y W H X2 Y2 W2 H2 : Int},
    nodeWithin n X Y W H → X2 ≤ X → Y2 ≤ Y → X + W ≤ X2 + W2 → Y + H ≤ Y2 + H2 →
    nodeWithin n X2 Y2 W2 H2 := by
  intro n
  induction n with
  | leaf x y w h room =>
    intro X Y W H X2 Y2 W2 H2 hn h1 h2 h3 h4
    obtain ⟨a, b, c, d⟩ := hn
    exact ⟨by omega, by omega, by omega, by omega⟩
  | branch x y w h l r ihl ihr =>
    intro X Y W H X2 Y2 W2 H2 hn h1 h2 h3 h4
    exact ⟨ihl hn.1 h1 h2 h3 h4, ihr hn.2 h1 h2 h3 h4⟩

theorem splitNode_within : ∀ (dep : Nat) (x y w h : Int) (rng : Rng),
    nodeWithin (splitNode dep x y w h rng).1 x y w h := by
  intro dep
  induction dep with
  | zero =>
    intro x y w h rng
    exact ⟨le_refl x, le_refl y, le_refl _, le_refl _⟩
  | succ d ih =>
    intro x y w h rng
    have hm : MinRoomSize = 6 := rfl
    simp only [splitNode]
    generalize (if 5 * h ≤ 4 * w then false
        else if 5 * w ≤ 4 * h then true
        else floatGtHalf (Rng.float32 rng).1) = b
    cases b
    · simp only [Bool.false_eq_true, if_false]
      split
      · exact ⟨le_refl x, le_refl y, le_refl _, le_refl _⟩
      · next hms =>
        have hb := splitOffset_bounds (w - MinRoomSize) ((Rng.float32 rng).2) (by omega)
        refine ⟨nodeWithin_mono _ (ih x y _ h _) le_rfl le_rfl (by omega) le_rfl,
                nodeWithin_mono _ (ih _ y _ h _) (by omega) le_rfl (by omega) le_rfl⟩
    · simp only [if_true]
      split
      · exact ⟨le_refl x, le_refl y, le_refl _, le_refl _⟩
      · next hms =>
        have hb := splitOffset_bounds (h - MinRoomSize) ((Rng.float32 rng).2) (by omega)
        refine ⟨nodeWithin_mono _ (ih x y w _ _) le_rfl le_rfl le_rfl (by omega),
                nodeWithin_mono _ (ih x _ w _ _) le_rfl (by omega) le_rfl (by omega)⟩

theorem createRooms_ok : ∀ (n : BSPNode) (rng : Rng) (W H : Int),
    nodeWithin n 0 0 W H →
    ∀ r ∈ getRooms (createRooms n rng).1, RoomOK r W H := by
  intro n
  induction n with
  | leaf x y w h room =>
    intro rng W H hin r hr
    have hm : MinRoomSize = 6 := rfl
    obtain ⟨ha, hb, hc, hd⟩ := hin
    simp only [createRooms] at hr
    split at hr
    · simp only [getRooms] at hr
      cases hr
    · next hcond =>
      simp only [getRooms, List.mem_singleton] at hr
      subst hr
      have hok := createRoomAt_ok x y w h rng (by omega) (by omega)
      exact ⟨hok.1, hok.2.1, by omega, by omega, by omega, by omega⟩
  | branch x y w h l r ihl ihr =>
    intro rng W H hin r2 hr2
    simp only [createRooms, getRooms, List.mem_append] at hr2
    rcases hr2 with hmem | hmem
    · exact ihl rng W H hin.1 r2 hmem
    · exact ihr _ W H hin.2 r2 hmem

theorem getRoom_mem : ∀ (n : BSPNode) (r : Room), getRoom n = some r → r ∈ getRooms n := by
  intro n
  induction n with
  | leaf x y w h room =>
    intro r hr
    cases room with
    | none => cases hr
    | some s =>
      have hs : s = r := Option.some.inj hr
      subst hs
      simp [getRooms]
  | branch x y w h l r ihl ihr =>
    intro r2 h2
    simp only [getRooms, List.mem_append]
    rcases hgl : getRoom l with _ | lr
    · rw [getRoom, hgl] at h2
      exact Or.inr (ihr r2 h2)
    · rw [getRoom, hgl] at h2
      obtain rfl : lr = r2 := Option.some.inj h2
      exact Or.inl (ihl lr hgl)

theorem getRoom_none : ∀ (n : BSPNode), getRoom n = none → getRooms n = [] := by
  intro n
  induction n with
  | leaf x y w h room =>
    intro h
    cases room with
    | none => rfl
    | some s => cases h
  | branch x y w h l r ihl ihr =>
    intro h2
    rcases hgl : getRoom l with _ | lr
    · rw [getRoom, hgl] at h2
      simp only [getRooms, ihl hgl, ihr h2, List.append_nil]
    · rw [getRoom, hgl] at h2
      cases h2

theorem tilesOnly_refl (d : Dungeon) : tilesOnly d d :=
  ⟨rfl, rfl, rfl, fun _ _ hw => hw⟩

theorem tilesOnly_trans {a b c : Dungeon} (h1 : tilesOnly a b) (h2 : tilesOnly b c) :
    tilesOnly a c :=
  ⟨h2.1.trans h1.1, h2.2.1.trans h1.2.1, h2.2.2.1.trans h1.2.2.1,
   fun x y hw => h2.2.2.2 x y (h1.2.2.2 x y hw)⟩

theorem setFloor_tilesOnly (d : Dungeon) (x y : Int) : tilesOnly d (d.setFloor x y) := by
  unfold Dungeon.setFloor
  split
  · refine ⟨rfl, rfl, rfl, fun a b hw => ?_⟩
    show (if b = y ∧ a = x then Tile.floor else d.Tiles b a) ≠ Tile.wall
    split
    · exact fun hc => Tile.noConfusion hc
    · exact hw
  · exact tilesOnly_refl d

theorem foldl_tilesOnly {α : Type} (step : Dungeon → α → Dungeon)
    (hstep : ∀ d a, tilesOnly d (step d a)) :
    ∀ (l : List α) (d : Dungeon), tilesOnly d (l.foldl step d) := by
  intro l
  induction l with
  | nil => intro d; exact tilesOnly_refl d
  | cons a l ih => intro d; exact tilesOnly_trans (hstep d a) (ih (step d a))

theorem carveH_tilesOnly (d : Dungeon) (x1 x2 y : Int) : tilesOnly d (carveH d x1 x2 y) := by
  simp only [carveH]
  exact foldl_tilesOnly _ (fun d' a => setFloor_tilesOnly d' _ _) _ d

theorem carveV_tilesOnly (d : Dungeon) (y1 y2 x : Int) : tilesOnly d (carveV d y1 y2 x) := by
  simp only [carveV]
  exact foldl_tilesOnly _ (fun d' a => setFloor_tilesOnly d' _ _) _ d

theorem carveRoom_tilesOnly (d : Dungeon) (r : Room) : tilesOnly d (carveRoom d r) := by
  simp only [carveRoom]
  exact foldl_tilesOnly _
    (fun d' j => foldl_tilesOnly _ (fun d'' i => setFloor_tilesOnly d'' _ _) _ d') _ d

theorem connectRooms_tilesOnly :
    ∀ (n : BSPNode) (d : Dungeon) (rng : Rng), tilesOnly d (connectRooms n d rng).1 := by
  intro n
  induction n with
  | leaf x y w h room => intro d rng; exact tilesOnly_refl d
  | branch x y w h l r ihl ihr =>
    intro d rng
    simp only [connectRooms]
    split
    · split
      · exact tilesOnly_trans (tilesOnly_trans (ihl d rng) (ihr _ _))
          (tilesOnly_trans (carveH_tilesOnly _ _ _ _) (carveV_tilesOnly _ _ _ _))
      · exact tilesOnly_trans (tilesOnly_trans (ihl d rng) (ihr _ _))
          (tilesOnly_trans (carveV_tilesOnly _ _ _ _) (carveH_tilesOnly _ _ _ _))
    · exact tilesOnly_trans (ihl d rng) (ihr _ _)

theorem isWalkable_intro (d : Dungeon) (x y : Int) (hx : 0 ≤ x) (hx2 : x < d.Width)
    (hy : 0 ≤ y) (hy2 : y < d.Height) (ht : d.Tiles y x ≠ .wall) :
    d.IsWalkable x y = true := by
  unfold Dungeon.IsWalkable
  rw [if_neg (by omega)]
  exact decide_eq_true ht

theorem isWalkable_elim {d : Dungeon} {x y : Int} (h : d.IsWalkable x y = true) :
    0 ≤ x ∧ x < d.Width ∧ 0 ≤ y ∧ y < d.Height ∧ d.Tiles y x ≠ .wall := by
  unfold Dungeon.IsWalkable at h
  by_cases hc : x < 0 ∨ d.Width ≤ x ∨ y < 0 ∨ d.Height ≤ y
  · rw [if_pos hc] at h
    cases h
  · rw [if_neg hc] at h
    exact ⟨by omega, by omega, by omega, by omega, of_decide_eq_true h⟩

theorem walk_mono {d d' : Dungeon} (h : tilesOnly d d') {a b : Int}
    (hw : d.IsWalkable a b = true) : d'.IsWalkable a b = true := by
  obtain ⟨h1, h2, h3, h4, h5⟩ := isWalkable_elim hw
  exact isWalkable_intro d' a b h1 (by rw [h.1]; exact h2) h3 (by rw [h.2.1]; exact h4)
    (h.2.2.2 a b h5)

theorem setFloor_walk (d : Dungeon) (x y : Int) (hx : 0 ≤ x) (hx2 : x < d.Width)
    (hy : 0 ≤ y) (hy2 : y < d.Height) : (d.setFloor x y).IsWalkable x y = true := by
  unfold Dungeon.setFloor
  rw [if_pos ⟨hy, hy2, hx, hx2⟩]
  refine isWalkable_intro _ x y hx hx2 hy hy2 ?_
  show (if y = y ∧ x = x then Tile.floor else d.Tiles y x) ≠ Tile.wall
  rw [if_pos ⟨rfl, rfl⟩]
  exact fun hc => Tile.noConfusion hc

theorem foldl_setFloor_row (lo y : Int) : ∀ (n : Nat) (d : Dungeon) (k : Nat), k < n →
    0 ≤ lo + (k : Int) → lo + (k : Int) < d.Width → 0 ≤ y → y < d.Height →
    ((List.range n).foldl (fun d' i => d'.setFloor (lo + (i : Int)) y) d).IsWalkable
      (lo + (k : Int)) y = true := by
  intro n
  induction n with
  | zero =>
    intro d k hk
    exact absurd hk (Nat.not_lt_zero k)
  | succ n ih =>
    intro d k hk h1 h2 h3 h4
    rw [List.range_succ, List.foldl_append, List.foldl_cons, List.foldl_nil]
    by_cases hkn : k < n
    · exact walk_mono (setFloor_tilesOnly _ _ _) (ih d k hkn h1 h2 h3 h4)
    · obtain rfl : k = n := by omega
      have hD := foldl_tilesOnly (fun d' (i : Nat) => d'.setFloor (lo + (i : Int)) y)
        (fun d' a => setFloor_tilesOnly d' _ _) (List.range k) d
      exact setFloor_walk _ _ _ h1 (by rw [hD.1]; exact h2) h3 (by rw [hD.2.1]; exact h4)

theorem foldl_setFloor_col (x lo : Int) : ∀ (n : Nat) (d : Dungeon) (k : Nat), k < n →
    0 ≤ lo + (k : Int) → lo + (k : Int) < d.Height → 0 ≤ x → x < d.Width →
    ((List.range n).foldl (fun d' i => d'.setFloor x (lo + (i : Int))) d).IsWalkable
      x (lo + (k : Int)) = true := by
  intro n
  induction n with
  | zero =>
    intro d k hk
    exact absurd hk (Nat.not_lt_zero k)
  | succ n ih =>
    intro d k hk h1 h2 h3 h4
    rw [List.range_succ, List.foldl_append, List.foldl_cons, List.foldl_nil]
    by_cases hkn : k < n
    · exact walk_mono (setFloor_tilesOnly _ _ _) (ih d k hkn h1 h2 h3 h4)
    · obtain rfl : k = n := by omega
      have hD := foldl_tilesOnly (fun d' (i : Nat) => d'.setFloor x (lo + (i : Int)))
        (fun d' a => setFloor_tilesOnly d' _ _) (List.range k) d
      exact setFloor_walk _ _ _ h3 (by rw [hD.1]; exact h4) h1 (by rw [hD.2.1]; exact h2)

theorem carveH_walk (d : Dungeon) (x1 x2 y t : Int)
    (h1 : min x1 x2 ≤ t) (h2 : t ≤ max x1 x2)
    (hb : 0 ≤ min x1 x2) (hb2 : max x1 x2 < d.Width) (hy : 0 ≤ y) (hy2 : y < d.Height) :
    (carveH d x1 x2 y).IsWalkable t y = true := by
  simp only [carveH]
  have ht : t = min x1 x2 + (((t - min x1 x2).toNat : Nat) : Int) := by omega
  rw [ht]
  exact foldl_setFloor_row (min x1 x2) y ((max x1 x2 - min x1 x2 + 1).toNat) d
    ((t - min x1 x2).toNat) (by omega) (by omega) (by omega) hy hy2

theorem carveV_walk (d : Dungeon) (y1 y2 x t : Int)
    (h1 : min y1 y2 ≤ t) (h2 : t ≤ max y1 y2)
    (hb : 0 ≤ min y1 y2) (hb2 : max y1 y2 < d.Height) (hx : 0 ≤ x) (hx2 : x < d.Width) :
    (carveV d y1 y2 x).IsWalkable x t = true := by
  simp only [carveV]
  have ht : t = min y1 y2 + (((t - min y1 y2).toNat : Nat) : Int) := by omega
  rw [ht]
  exact foldl_setFloor_col x (min y1 y2) ((max y1 y2 - min y1 y2 + 1).toNat) d
    ((t - min y1 y2).toNat) (by omega) (by omega) (by omega) hx hx2

theorem containsPt_iff (r : Room) (a b : Int) :
    r.containsPt a b = true ↔ r.X ≤ a ∧ a < r.X + r.W ∧ r.Y ≤ b ∧ b < r.Y + r.H := by
  simp [Room.containsPt, and_assoc]

theorem foldl_rows_walk (X Y W : Int) : ∀ (m : Nat) (d : Dungeon) (j : Nat), j < m →
    ∀ (k : Nat), k < W.toNat → 0 ≤ X + (k : Int) → X + (k : Int) < d.Width →
    0 ≤ Y + (j : Int) → Y + (j : Int) < d.Height →
    ((List.range m).foldl
      (fun d' jj => (List.range W.toNat).foldl
        (fun d'' i => d''.setFloor (X + (i : Int)) (Y + (jj : Int))) d') d).IsWalkable
      (X + (k : Int)) (Y + (j : Int)) = true := by
  intro m
  induction m with
  | zero =>
    intro d j hj
    exact absurd hj (Nat.not_lt_zero j)
  | succ m ih =>
    intro d j hj k hk h1 h2 h3 h4
    rw [List.range_succ, List.foldl_append, List.foldl_cons, List.foldl_nil]
    by_cases hjm : j < m
    · exact walk_mono
        (foldl_tilesOnly _ (fun d' a => setFloor_tilesOnly d' _ _) (List.range W.toNat) _)
        (ih d j hjm k hk h1 h2 h3 h4)
    · obtain rfl : j = m := by omega
      have hD := foldl_tilesOnly
        (fun d' (jj : Nat) => (List.range W.toNat).foldl
          (fun d'' (i : Nat) => d''.setFloor (X + (i : Int)) (Y + (jj : Int))) d')
        (fun d' a =>
          foldl_tilesOnly _ (fun d'' i => setFloor_tilesOnly d'' _ _) (List.range W.toNat) d')
        (List.range j) d
      exact foldl_setFloor_row X (Y + (j : Int)) W.toNat
        ((List.range j).foldl
          (fun d' (jj : Nat) => (List.range W.toNat).foldl
            (fun d'' (i : Nat) => d''.setFloor (X + (i : Int)) (Y + (jj : Int))) d') d)
        k hk h1 (by rw [hD.1]; exact h2) h3 (by rw [hD.2.1]; exact h4)

theorem carveRoom_walk (d : Dungeon) (r : Room) (a b : Int)
    (hc : r.containsPt a b = true)
    (hb1 : 0 ≤ r.X) (hb2 : r.X + r.W ≤ d.Width) (hb3 : 0 ≤ r.Y) (hb4 : r.Y + r.H ≤ d.Height) :
    (carveRoom d r).IsWalkable a b = true := by
  rw [containsPt_iff] at hc
  simp only [carveRoom]
  have hA : a = r.X + (((a - r.X).toNat : Nat) : Int) := by omega
  have hB : b = r.Y + (((b - r.Y).toNat : Nat) : Int) := by omega
  rw [hA, hB]
  exact foldl_rows_walk r.X r.Y r.W r.H.toNat d _ (by omega) _ (by omega)
    (by omega) (by omega) (by omega) (by omega)

theorem foldl_carveRoom_walk : ∀ (l : List Room) (d : Dungeon) (r : Room), r ∈ l →
    (∀ s ∈ l, RoomOK s d.Width d.Height) →
    ∀ a b, r.containsPt a b = true → (l.foldl carveRoom d).IsWalkable a b = true := by
  intro l
  induction l with
  | nil =>
    intro d r hr
    cases hr
  | cons s l ih =>
    intro d r hr hok a b hc
    rw [List.foldl_cons]
    rcases List.mem_cons.mp hr with rfl | hmem
    · have hro := hok r (List.mem_cons_self r l)
      obtain ⟨hW, hH, hX, hY, hXW, hYH⟩ := hro
      have h1 : (carveRoom d r).IsWalkable a b = true :=
        carveRoom_walk d r a b hc (by omega) (by omega) (by omega) (by omega)
      exact walk_mono (foldl_tilesOnly carveRoom (fun d' s' => carveRoom_tilesOnly d' s') l _) h1
    · have ht := carveRoom_tilesOnly d s
      refine ih (carveRoom d s) r hmem ?_ a b hc
      intro s2 hs2
      have hro := hok s2 (List.mem_cons_of_mem _ hs2)
      rw [ht.1, ht.2.1]
      exact hro

theorem reach_mono {d d' : Dungeon} (h : tilesOnly d d') {p q : Int × Int}
    (hr : Reachable d p q) : Reachable d' p q := by
  refine Relation.ReflTransGen.mono ?_ hr
  intro a b hab
  exact ⟨walk_mono h hab.1, hab.2⟩

theorem reach_walk {d : Dungeon} {p q : Int × Int} (h : Reachable d p q)
    (hp : d.IsWalkable p.1 p.2 = true) : d.IsWalkable q.1 q.2 = true := by
  induction h with
  | refl => exact hp
  | tail h1 h2 ih => exact h2.1

theorem reach_symm {d : Dungeon} {p q : Int × Int}
    (hp : d.IsWalkable p.1 p.2 = true) (h : Reachable d p q) : Reachable d q p := by
  induction h with
  | refl => exact Relation.ReflTransGen.refl
  | tail h1 h2 ih =>
    refine Relation.ReflTransGen.trans (Relation.ReflTransGen.single ?_) ih
    refine ⟨reach_walk h1 hp, ?_⟩
    rcases h2.2 with ⟨ha, hb2⟩ | ⟨ha, hb2⟩ | ⟨ha, hb2⟩ | ⟨ha, hb2⟩
    · exact Or.inr (Or.inl ⟨by omega, by omega⟩)
    · exact Or.inl ⟨by omega, by omega⟩
    · exact Or.inr (Or.inr (Or.inr ⟨by omega, by omega⟩))
    · exact Or.inr (Or.inr (Or.inl ⟨by omega, by omega⟩))

theorem rowReachAsc (d : Dungeon) (x0 y : Int) : ∀ (n : Nat),
    (∀ k : Nat, k ≤ n → d.IsWalkable (x0 + (k : Int)) y = true) →
    Reachable d (x0, y) (x0 + (n : Int), y) := by
  intro n
  induction n with
  | zero =>
    simp only [Nat.cast_zero, Int.add_zero]
    intro h
    exact Relation.ReflTransGen.refl
  | succ n ih =>
    intro h
    refine Relation.ReflTransGen.tail (ih fun k hk => h k (by omega)) ⟨?_, ?_⟩
    · have := h (n + 1) (le_refl _)
      simpa using this
    · exact Or.inl ⟨by push_cast; ring, rfl⟩

theorem colReachAsc (d : Dungeon) (x y0 : Int) : ∀ (n : Nat),
    (∀ k : Nat, k ≤ n → d.IsWalkable x (y0 + (k : Int)) = true) →
    Reachable d (x, y0) (x, y0 + (n : Int)) := by
  intro n
  induction n with
  | zero =>
    simp only [Nat.cast_zero, Int.add_zero]
    intro h
    exact Relation.ReflTransGen.refl
  | succ n ih =>
    intro h
    refine Relation.ReflTransGen.tail (ih fun k hk => h k (by omega)) ⟨?_, ?_⟩
    · have := h (n + 1) (le_refl _)
      simpa using this
    · exact Or.inr (Or.inr (Or.inl ⟨rfl, by push_cast; ring⟩))

theorem segReachH (d : Dungeon) (x1 x2 y : Int)
    (h : ∀ t, min x1 x2 ≤ t → t ≤ max x1 x2 → d.IsWalkable t y = true) :
    Reachable d (x1, y) (x2, y) := by
  rcases le_total x1 x2 with hle | hle
  · have hx : x2 = x1 + (((x2 - x1).toNat : Nat) : Int) := by omega
    rw [hx]
    exact rowReachAsc d x1 y _ (fun k hk => h (x1 + k) (by omega) (by omega))
  · have hx : x1 = x2 + (((x1 - x2).toNat : Nat) : Int) := by omega
    have hr : Reachable d (x2, y) (x1, y) := by
      rw [hx]
      exact rowReachAsc d x2 y _ (fun k hk => h (x2 + k) (by omega) (by omega))
    exact reach_symm (h x2 (by omega) (by omega)) hr

theorem segReachV (d : Dungeon) (y1 y2 x : Int)
    (h : ∀ t, min y1 y2 ≤ t → t ≤ max y1 y2 → d.IsWalkable x t = true) :
    Reachable d (x, y1) (x, y2) := by
  rcases le_total y1 y2 with hle | hle
  · have hy : y2 = y1 + (((y2 - y1).toNat : Nat) : Int) := by omega
    rw [hy]
    exact colReachAsc d x y1 _ (fun k hk => h (y1 + k) (by omega) (by omega))
  · have hy : y1 = y2 + (((y1 - y2).toNat : Nat) : Int) := by omega
    have hr : Reachable d (x, y2) (x, y1) := by
      rw [hy]
      exact colReachAsc d x y2 _ (fun k hk => h (y2 + k) (by omega) (by omega))
    exact reach_symm (h y2 (by omega) (by omega)) hr

theorem rectReach (d : Dungeon) (r : Room) (x1 y1 x2 y2 : Int)
    (hw : ∀ a b, r.containsPt a b = true → d.IsWalkable a b = true)
    (h1 : r.containsPt x1 y1 = true) (h2 : r.containsPt x2 y2 = true) :
    Reachable d (x1, y1) (x2, y2) := by
  rw [containsPt_iff] at h1 h2
  refine Relation.ReflTransGen.trans
    (segReachH d x1 x2 y1 fun t ht1 ht2 => hw t y1 (by rw [containsPt_iff]; omega))
    (segReachV d y1 y2 x2 fun t ht1 ht2 => hw x2 t (by rw [containsPt_iff]; omega))

theorem center_in (r : Room) (hW : 1 ≤ r.W) (hH : 1 ≤ r.H) :
    r.containsPt r.center.1 r.center.2 = true := by
  rw [containsPt_iff]
  show r.X ≤ r.X + r.W / 2 ∧ r.X + r.W / 2 < r.X + r.W ∧
    r.Y ≤ r.Y + r.H / 2 ∧ r.Y + r.H / 2 < r.Y + r.H
  omega

theorem connectRooms_reach : ∀ (n : BSPNode) (d : Dungeon) (rng : Rng),
    (∀ r ∈ getRooms n, RoomOK r d.Width d.Height) →
    (∀ r ∈ getRooms n, ∀ a b, r.containsPt a b = true → d.IsWalkable a b = true) →
    ∀ r1 ∈ getRooms n, ∀ r2 ∈ getRooms n,
      Reachable (connectRooms n d rng).1 r1.center r2.center := by
  intro n
  induction n with
  | leaf x y w h room =>
    intro d rng hok hw r1 h1 r2 h2
    cases room with
    | none =>
      simp only [getRooms] at h1
      exact absurd h1 (List.not_mem_nil r1)
    | some s =>
      simp only [getRooms, List.mem_singleton] at h1 h2
      subst h1
      subst h2
      exact Relation.ReflTransGen.refl
  | branch x y w h l r ihl ihr =>
    intro d rng hok hw r1 h1 r2 h2
    have hokl : ∀ s ∈ getRooms l, RoomOK s d.Width d.Height :=
      fun s hs => hok s (by simp only [getRooms, List.mem_append]; exact Or.inl hs)
    have hokr : ∀ s ∈ getRooms r, RoomOK s d.Width d.Height :=
      fun s hs => hok s (by simp only [getRooms, List.mem_append]; exact Or.inr hs)
    have hwl : ∀ s ∈ getRooms l, ∀ a b, s.containsPt a b = true → d.IsWalkable a b = true :=
      fun s hs => hw s (by simp only [getRooms, List.mem_append]; exact Or.inl hs)
    have hwr0 : ∀ s ∈ getRooms r, ∀ a b, s.containsPt a b = true → d.IsWalkable a b = true :=
      fun s hs => hw s (by simp only [getRooms, List.mem_append]; exact Or.inr hs)
    have tl : tilesOnly d (connectRooms l d rng).1 := connectRooms_tilesOnly l d rng
    have tr : tilesOnly (connectRooms l d rng).1
        (connectRooms r (connectRooms l d rng).1 (connectRooms l d rng).2).1 :=
      connectRooms_tilesOnly r _ _
    have hokr1 : ∀ s ∈ getRooms r,
        RoomOK s (connectRooms l d rng).1.Width (connectRooms l d rng).1.Height := by
      intro s hs
      rw [tl.1, tl.2.1]
      exact hokr s hs
    have hwr1 : ∀ s ∈ getRooms r, ∀ a b, s.containsPt a b = true →
        (connectRooms l d rng).1.IsWalkable a b = true :=
      fun s hs a b hc => walk_mono tl (hwr0 s hs a b hc)
    have hreachL := ihl d rng hokl hwl
    have hreachR := ihr (connectRooms l d rng).1 (connectRooms l d rng).2 hokr1 hwr1
    have tdr : tilesOnly d
        (connectRooms r (connectRooms l d rng).1 (connectRooms l d rng).2).1 :=
      tilesOnly_trans tl tr
    simp only [getRooms, List.mem_append] at h1 h2
    simp only [connectRooms]
    split
    · next lr rr heql heqr =>
      have hlmem := getRoom_mem l lr heql
      have hrmem := getRoom_mem r rr heqr
      have hm : MinRoomSize = 6 := rfl
      obtain ⟨hW1, hH1, hX1, hY1, hXW1, hYH1⟩ := hokl lr hlmem
      obtain ⟨hW2, hH2, hX2, hY2, hXW2, hYH2⟩ := hokr rr hrmem
      have hc1 : lr.X ≤ lr.center.1 ∧ lr.center.1 < lr.X + lr.W ∧
          lr.Y ≤ lr.center.2 ∧ lr.center.2 < lr.Y + lr.H := by
        rw [← containsPt_iff]
        exact center_in lr (by omega) (by omega)
      have hc2 : rr.X ≤ rr.center.1 ∧ rr.center.1 < rr.X + rr.W ∧
          rr.Y ≤ rr.center.2 ∧ rr.center.2 < rr.Y + rr.H := by
        rw [← containsPt_iff]
        exact center_in rr (by omega) (by omega)
      obtain ⟨ha1, ha2, ha3, ha4⟩ := hc1
      obtain ⟨hb1, hb2, hb3, hb4⟩ := hc2
      split
      · next hor =>
        have tH : tilesOnly
            (connectRooms r (connectRooms l d rng).1 (connectRooms l d rng).2).1
            (carveH (connectRooms r (connectRooms l d rng).1 (connectRooms l d rng).2).1
              lr.center.1 rr.center.1 lr.center.2) :=
          carveH_tilesOnly _ _ _ _
        have tV : tilesOnly
            (carveH (connectRooms r (connectRooms l d rng).1 (connectRooms l d rng).2).1
              lr.center.1 rr.center.1 lr.center.2)
            (carveV (carveH (connectRooms r (connectRooms l d rng).1 (connectRooms l d rng).2).1
              lr.center.1 rr.center.1 lr.center.2) lr.center.2 rr.center.2 rr.center.1) :=
          carveV_tilesOnly _ _ _ _
        have tDRdf := tilesOnly_trans tH tV
        have tddf := tilesOnly_trans tdr tDRdf
        have tldf := tilesOnly_trans tr tDRdf
        have hrow : ∀ t, min lr.center.1 rr.center.1 ≤ t → t ≤ max lr.center.1 rr.center.1 →
            (carveV (carveH (connectRooms r (connectRooms l d rng).1 (connectRooms l d rng).2).1
              lr.center.1 rr.center.1 lr.center.2) lr.center.2 rr.center.2
              rr.center.1).IsWalkable t lr.center.2 = true := by
          intro t ht1 ht2
          refine walk_mono tV (carveH_walk _ _ _ _ _ ht1 ht2 (by omega) ?_ (by omega) ?_)
          · rw [tdr.1]
            omega
          · rw [tdr.2.1]
            omega
        have hcol : ∀ t, min lr.center.2 rr.center.2 ≤ t → t ≤ max lr.center.2 rr.center.2 →
            (carveV (carveH (connectRooms r (connectRooms l d rng).1 (connectRooms l d rng).2).1
              lr.center.1 rr.center.1 lr.center.2) lr.center.2 rr.center.2
              rr.center.1).IsWalkable rr.center.1 t = true := by
          intro t ht1 ht2
          refine carveV_walk _ _ _ _ _ ht1 ht2 (by omega) ?_ (by omega) ?_
          · rw [tH.2.1, tdr.2.1]
            omega
          · rw [tH.1, tdr.1]
            omega
        have hcorr : Reachable
            (carveV (carveH (connectRooms r (connectRooms l d rng).1 (connectRooms l d rng).2).1
              lr.center.1 rr.center.1 lr.center.2) lr.center.2 rr.center.2 rr.center.1)
            lr.center rr.center :=
          Relation.ReflTransGen.trans (segReachH _ lr.center.1 rr.center.1 lr.center.2 hrow)
            (segReachV _ lr.center.2 rr.center.2 rr.center.1 hcol)
        have hcorr2 : Reachable
            (carveV (carveH (connectRooms r (connectRooms l d rng).1 (connectRooms l d rng).2).1
              lr.center.1 rr.center.1 lr.center.2) lr.center.2 rr.center.2 rr.center.1)
            rr.center lr.center :=
          Relation.ReflTransGen.trans
            (segReachV _ rr.center.2 lr.center.2 rr.center.1
              (fun t u1 u2 => hcol t (by omega) (by omega)))
            (segReachH _ rr.center.1 lr.center.1 lr.center.2
              (fun t u1 u2 => hrow t (by omega) (by omega)))
        rcases h1 with h1 | h1 <;> rcases h2 with h2 | h2
        · exact reach_mono tldf (hreachL r1 h1 r2 h2)
        · exact Relation.ReflTransGen.trans (reach_mono tldf (hreachL r1 h1 lr hlmem))
            (Relation.ReflTransGen.trans hcorr (reach_mono tDRdf (hreachR rr hrmem r2 h2)))
        · exact Relation.ReflTransGen.trans (reach_mono tDRdf (hreachR r1 h1 rr hrmem))
            (Relation.ReflTransGen.trans hcorr2 (reach_mono tldf (hreachL lr hlmem r2 h2)))
        · exact reach_mono tDRdf (hreachR r1 h1 r2 h2)
      · next hor =>
        have tV : tilesOnly
            (connectRooms r (connectRooms l d rng).1 (connectRooms l d rng).2).1
            (carveV (connectRooms r (connectRooms l d rng).1 (connectRooms l d rng).2).1
              lr.center.2 rr.center.2 lr.center.1) :=
          carveV_tilesOnly _ _ _ _
        have tH : tilesOnly
            (carveV (connectRooms r (connectRooms l d rng).1 (connectRooms l d rng).2).1
              lr.center.2 rr.center.2 lr.center.1)
            (carveH (carveV (connectRooms r (connectRooms l d rng).1 (connectRooms l d rng).2).1
              lr.center.2 rr.center.2 lr.center.1) lr.center.1 rr.center.1 rr.center.2) :=
          carveH_tilesOnly _ _ _ _
        have tDRdf := tilesOnly_trans tV tH
        have tddf := tilesOnly_trans tdr tDRdf
        have tldf := tilesOnly_trans tr tDRdf
        have hcol : ∀ t, min lr.center.2 rr.center.2 ≤ t → t ≤ max lr.center.2 rr.center.2 →
            (carveH (carveV (connectRooms r (connectRooms l d rng).1 (connectRooms l d rng).2).1
              lr.center.2 rr.center.2 lr.center.1) lr.center.1 rr.center.1
              rr.center.2).IsWalkable lr.center.1 t = true := by
          intro t ht1 ht2
          refine walk_mono tH (carveV_walk _ _ _ _ _ ht1 ht2 (by omega) ?_ (by omega) ?_)
          · rw [tdr.2.1]
            omega
          · rw [tdr.1]
            omega
        have hrow : ∀ t, min lr.center.1 rr.center.1 ≤ t → t ≤ max lr.center.1 rr.center.1 →
            (carveH (carveV (connectRooms r (connectRooms l d rng).1 (connectRooms l d rng).2).1
              lr.center.2 rr.center.2 lr.center.1) lr.center.1 rr.center.1
              rr.center.2).IsWalkable t rr.center.2 = true := by
          intro t ht1 ht2
          refine carveH_walk _ _ _ _ _ ht1 ht2 (by omega) ?_ (by omega) ?_
          · rw [tV.1, tdr.1]
            omega
          · rw [tV.2.1, tdr.2.1]
            omega
        have hcorr : Reachable
            (carveH (carveV (connectRooms r (connectRooms l d rng).1 (connectRooms l d rng).2).1
              lr.center.2 rr.center.2 lr.center.1) lr.center.1 rr.center.1 rr.center.2)
            lr.center rr.center :=
          Relation.ReflTransGen.trans (segReachV _ lr.center.2 rr.center.2 lr.center.1 hcol)
            (segReachH _ lr.center.1 rr.center.1 rr.center.2 hrow)
        have hcorr2 : Reachable
            (carveH (carveV (connectRooms r (connectRooms l d rng).1 (connectRooms l d rng).2).1
              lr.center.2 rr.center.2 lr.center.1) lr.center.1 rr.center.1 rr.center.2)
            rr.center lr.center :=
          Relation.ReflTransGen.trans
            (segReachH _ rr.center.1 lr.center.1 rr.center.2
              (fun t u1 u2 => hrow t (by omega) (by omega)))
            (segReachV _ rr.center.2 lr.center.2 lr.center.1
              (fun t u1 u2 => hcol t (by omega) (by omega)))
        rcases h1 with h1 | h1 <;> rcases h2 with h2 | h2
        · exact reach_mono tldf (hreachL r1 h1 r2 h2)
        · exact Relation.ReflTransGen.trans (reach_mono tldf (hreachL r1 h1 lr hlmem))
            (Relation.ReflTransGen.trans hcorr (reach_mono tDRdf (hreachR rr hrmem r2 h2)))
        · exact Relation.ReflTransGen.trans (reach_mono tDRdf (hreachR r1 h1 rr hrmem))
            (Relation.ReflTransGen.trans hcorr2 (reach_mono tldf (hreachL lr hlmem r2 h2)))
        · exact reach_mono tDRdf (hreachR r1 h1 r2 h2)
    · next hdef =>
      rcases hgl : getRoom l with _ | lr
      · have hemp := getRoom_none l hgl
        rw [hemp] at h1 h2
        rcases h1 with h1 | h1
        · exact absurd h1 (List.not_mem_nil r1)
        rcases h2 with h2 | h2
        · exact absurd h2 (List.not_mem_nil r2)
        exact hreachR r1 h1 r2 h2
      · rcases hgr : getRoom r with _ | rr
        · have hemp := getRoom_none r hgr
          rw [hemp] at h1 h2
          rcases h1 with h1 | h1
          swap
          · exact absurd h1 (List.not_mem_nil r1)
          rcases h2 with h2 | h2
          swap
          · exact absurd h2 (List.not_mem_nil r2)
          exact reach_mono tr (hreachL r1 h1 r2 h2)
        · exact absurd (hdef lr rr hgl hgr) not_false

theorem placeDoor_facts (d : Dungeon) (rng : Rng) (rl : Room)
    (hlast : d.Rooms.getLast? = some rl) (hok : RoomOK rl d.Width d.Height) :
    tilesOnly d (PlaceDoor d rng).2.1 ∧
    rl.containsPt (PlaceDoor d rng).1.1 (PlaceDoor d rng).1.2 = true ∧
    (PlaceDoor d rng).2.1.IsWalkable (PlaceDoor d rng).1.1 (PlaceDoor d rng).1.2 = true := by
  have hm : MinRoomSize = 6 := rfl
  obtain ⟨hW, hH, hX, hY, hXW, hYH⟩ := hok
  have hx0 := intn_nonneg rng (rl.W - 2)
  have hx1 := intn_lt rng (rl.W - 2) (by omega)
  have hy0 := intn_nonneg (rng.intn (rl.W - 2)).2 (rl.H - 2)
  have hy1 := intn_lt (rng.intn (rl.W - 2)).2 (rl.H - 2) (by omega)
  simp only [PlaceDoor, hlast]
  refine ⟨⟨rfl, rfl, rfl, ?_⟩, ?_, ?_⟩
  · intro a b hw
    show (if b = rl.Y + ((rng.intn (rl.W - 2)).2.intn (rl.H - 2)).1 + 1 ∧
          a = rl.X + (rng.intn (rl.W - 2)).1 + 1
        then Tile.door else d.Tiles b a) ≠ Tile.wall
    split
    · exact fun hc => Tile.noConfusion hc
    · exact hw
  · rw [containsPt_iff]
    refine ⟨by omega, by omega, by omega, by omega⟩
  · refine isWalkable_intro _ _ _ (by omega) (by dsimp only; omega) (by omega)
      (by dsimp only; omega) ?_
    show (if rl.Y + ((rng.intn (rl.W - 2)).2.intn (rl.H - 2)).1 + 1 =
            rl.Y + ((rng.intn (rl.W - 2)).2.intn (rl.H - 2)).1 + 1 ∧
          rl.X + (rng.intn (rl.W - 2)).1 + 1 = rl.X + (rng.intn (rl.W - 2)).1 + 1
        then Tile.door else d.Tiles (rl.Y + ((rng.intn (rl.W - 2)).2.intn (rl.H - 2)).1 + 1)
          (rl.X + (rng.intn (rl.W - 2)).1 + 1)) ≠ Tile.wall
    rw [if_pos ⟨rfl, rfl⟩]
    exact fun hc => Tile.noConfusion hc

theorem head?_mem {l : List Room} {a : Room} (h : l.head? = some a) : a ∈ l := by
  cases l with
  | nil => cases h
  | cons b t =>
    simp only [List.head?_cons, Option.some.injEq] at h
    subst h
    exact List.mem_cons_self b t

theorem getLast?_mem : ∀ {l : List Room} {a : Room}, l.getLast? = some a → a ∈ l := by
  intro l
  induction l with
  | nil => intro a h; cases h
  | cons b t ih =>
    intro a h
    cases t with
    | nil =>
      simp only [List.getLast?_singleton, Option.some.injEq] at h
      subst h
      exact List.mem_cons_self b []
    | cons c t2 =>
      rw [List.getLast?_cons_cons] at h
      exact List.mem_cons_of_mem b (ih h)

theorem getLast?_isSome : ∀ (b : Room) (t : List Room), ∃ a, (b :: t).getLast? = some a := by
  intro b t
  induction t generalizing b with
  | nil => exact ⟨b, rfl⟩
  | cons c t2 ih =>
    rw [List.getLast?_cons_cons]
    exact ih c

/-- C1: for every generated dungeon with a non-empty room list, the
breadth-first walk over walkable tiles that starts at the first room's
center reaches every other room's center and the door tile placed by
`PlaceDoor` (all in the final, door-placed dungeon). -/
theorem claim_C1 (w h : Int) (rng rng2 : Rng) (cf : Option CodeFile) (r0 : Room)
    (hr0 : (GenerateDungeon w h rng cf).1.Rooms.head? = some r0) :
    (∀ r ∈ (GenerateDungeon w h rng cf).1.Rooms,
      Reachable (PlaceDoor (GenerateDungeon w h rng cf).1 rng2).2.1 r0.center r.center) ∧
    Reachable (PlaceDoor (GenerateDungeon w h rng cf).1 rng2).2.1 r0.center
      (PlaceDoor (GenerateDungeon w h rng cf).1 rng2).1 := by
  set D := (GenerateDungeon w h rng cf).1 with hDdef
  set t0 := splitNode 4 0 0 w h rng with ht0
  set t1 := createRooms t0.1 t0.2 with ht1
  set rooms := getRooms t1.1 with hrooms
  set d0 : Dungeon :=
    { Width := w, Height := h, Tiles := fun _ _ => Tile.wall
      Rooms := rooms, CodeFile := cf } with hd0
  set d1 := rooms.foldl carveRoom d0 with hd1
  have hGD : D = (connectRooms t1.1 d1 t1.2).1 := rfl
  have h01 : tilesOnly d0 d1 :=
    foldl_tilesOnly carveRoom (fun a b => carveRoom_tilesOnly a b) rooms d0
  have hTD : tilesOnly d1 (connectRooms t1.1 d1 t1.2).1 :=
    connectRooms_tilesOnly t1.1 d1 t1.2
  have hDRooms : D.Rooms = rooms := by
    rw [hGD, hTD.2.2.1, h01.2.2.1]
  have hDW : D.Width = w := by
    rw [hGD, hTD.1, h01.1]
  have hDH : D.Height = h := by
    rw [hGD, hTD.2.1, h01.2.1]
  have hok : ∀ r ∈ rooms, RoomOK r w h :=
    fun r hr => createRooms_ok t0.1 t0.2 w h (splitNode_within 4 0 0 w h rng) r hr
  have hcells : ∀ r ∈ rooms, ∀ a b, r.containsPt a b = true → d1.IsWalkable a b = true :=
    fun r hr a b hc => foldl_carveRoom_walk rooms d0 r hr hok a b hc
  have hok1 : ∀ r ∈ rooms, RoomOK r d1.Width d1.Height := by
    intro r hr
    rw [h01.1, h01.2.1]
    exact hok r hr
  have hreach := connectRooms_reach t1.1 d1 t1.2 hok1 hcells
  rw [hDRooms] at hr0
  have hr0mem : r0 ∈ rooms := head?_mem hr0
  obtain ⟨b, t, hbt⟩ : ∃ b t, rooms = b :: t := by
    cases hrr : rooms with
    | nil =>
      rw [hrr] at hr0
      cases hr0
    | cons b t => exact ⟨b, t, rfl⟩
  obtain ⟨rl, hrl⟩ : ∃ rl, rooms.getLast? = some rl := by
    rw [hbt]
    exact getLast?_isSome b t
  have hrlmem : rl ∈ rooms := getLast?_mem hrl
  have hlastD : D.Rooms.getLast? = some rl := by
    rw [hDRooms]
    exact hrl
  have hokD : RoomOK rl D.Width D.Height := by
    rw [hDW, hDH]
    exact hok rl hrlmem
  obtain ⟨tDF, hdoorin, hdoorwalk⟩ := placeDoor_facts D rng2 rl hlastD hokD
  have tD1D : tilesOnly d1 D := by
    rw [hGD]
    exact hTD
  have hm : MinRoomSize = 6 := rfl
  refine ⟨?_, ?_⟩
  · intro r hrD
    rw [hDRooms] at hrD
    have hr1 : Reachable D r0.center r.center := by
      rw [hGD]
      exact hreach r0 hr0mem r hrD
    exact reach_mono tDF hr1
  · have h1 : Reachable D r0.center rl.center := by
      rw [hGD]
      exact hreach r0 hr0mem rl hrlmem
    have h2 : Reachable (PlaceDoor D rng2).2.1 r0.center rl.center := reach_mono tDF h1
    have hcellsF : ∀ a b, rl.containsPt a b = true →
        (PlaceDoor D rng2).2.1.IsWalkable a b = true :=
      fun a b hc => walk_mono tDF (walk_mono tD1D (hcells rl hrlmem a b hc))
    obtain ⟨hW, hH, _, _, _, _⟩ := hok rl hrlmem
    have h3 : Reachable (PlaceDoor D rng2).2.1 rl.center (PlaceDoor D rng2).1 :=
      rectReach (PlaceDoor D rng2).2.1 rl rl.center.1 rl.center.2
        (PlaceDoor D rng2).1.1 (PlaceDoor D rng2).1.2 hcellsF
        (center_in rl (by omega) (by omega)) hdoorin
    exact Relation.ReflTransGen.trans h2 h3

set_option maxRecDepth 8000 in
theorem claim_C1_witness :
    (GenerateDungeon 40 20 ⟨fun _ => 0, 0⟩ none).1.Rooms.head? = some ⟨25, 1, 6, 6⟩ ∧
    Reachable (PlaceDoor (GenerateDungeon 40 20 ⟨fun _ => 0, 0⟩ none).1 ⟨fun _ => 0, 0⟩).2.1
      (Room.center ⟨25, 1, 6, 6⟩)
      (PlaceDoor (GenerateDungeon 40 20 ⟨fun _ => 0, 0⟩ none).1 ⟨fun _ => 0, 0⟩).1 :=
  ⟨by decide,
   (claim_C1 40 20 ⟨fun _ => 0, 0⟩ ⟨fun _ => 0, 0⟩ none ⟨25, 1, 6, 6⟩ (by decide)).2⟩

theorem processTurn_Victory (g : GameState) (q : Entity) (hq : g.Player = some q) :
    (processTurn g).Victory = g.Victory := by
  unfold processTurn
  obtain ⟨es1, k1, m1, st1, h1⟩ := playerAutoAttack_shape g
  rw [h1]
  obtain ⟨q2, b2, t2, mv2, sp2, r2, c2, m2, st2, kb2, h2, hx2, hy2, _, _, _, _, _⟩ :=
    checkMergeConflict_player
      { g with Enemies := es1, EnemiesKilled := k1, Message := m1, MessageStyle := st1 }
      q hq
  rw [h2]
  obtain ⟨es3, h3⟩ := moveEnemies_shape
    { g with Enemies := es1, EnemiesKilled := k1, Message := m2, MessageStyle := st2
             Player := some q2, OnMergeConflict := b2, MergeConflictTriggered := t2
             MergeConflictMovements := mv2, MergeConflictSpread := sp2, RNG := r2
             ColorRotation := c2, KilledBy := kb2 }
  rw [h3]
  obtain ⟨q4, m4, st4, kb4, h4, hx4, hy4, _, _, _, _, _⟩ := enemyAttacks_player
    { g with Enemies := es3, EnemiesKilled := k1, Message := m2, MessageStyle := st2
             Player := some q2, OnMergeConflict := b2, MergeConflictTriggered := t2
             MergeConflictMovements := mv2, MergeConflictSpread := sp2, RNG := r2
             ColorRotation := c2, KilledBy := kb2 }
    q2 rfl
  rw [h4]
  obtain ⟨v5, e5, h5⟩ := updateVisibility_shape
    { g with Enemies := es3, EnemiesKilled := k1, Message := m4, MessageStyle := st4
             Player := some q4, OnMergeConflict := b2, MergeConflictTriggered := t2
             MergeConflictMovements := mv2, MergeConflictSpread := sp2, RNG := r2
             ColorRotation := c2, KilledBy := kb4 }
  rw [h5]
  obtain ⟨go6, m6, st6, mv6, h6⟩ := processTurnEnd_shape
    { g with Enemies := es3, EnemiesKilled := k1, Message := m4, MessageStyle := st4
             Player := some q4, OnMergeConflict := b2, MergeConflictTriggered := t2
             MergeConflictMovements := mv2, MergeConflictSpread := sp2, RNG := r2
             ColorRotation := c2, KilledBy := kb4, Visible := v5, Explored := e5 }
  rw [h6]

/-- C9 counterexample to the unconditional claim: in a non-terminal state
whose player stands on a walkable tile — the final level's door tile —
`MovePlayer 0 0` does NOT run the turn phase: it takes the door branch and
sets Victory, so a zero delta there is a level exit, not a silent turn. -/
theorem claim_C9_cex :
    (∃ g', MovePlayer gsC9 0 0 = some g' ∧ g'.Victory = true) ∧
    MovePlayer gsC9 0 0 ≠
      some (processTurn (animApply (moveApply gsC9 (NewPlayer 5 5)
        (NewPlayer 5 5).X (NewPlayer 5 5).Y))) := by
  have hmap : (MovePlayer gsC9 0 0).map GameState.Victory = some true := by decide
  obtain ⟨gv, hgv, hvict⟩ : ∃ g', MovePlayer gsC9 0 0 = some g' ∧ g'.Victory = true := by
    cases hmp : MovePlayer gsC9 0 0 with
    | none =>
      rw [hmp] at hmap
      cases hmap
    | some g' =>
      rw [hmp] at hmap
      exact ⟨g', rfl, Option.some.inj hmap⟩
  refine ⟨⟨gv, hgv, hvict⟩, ?_⟩
  intro hcontra
  rw [hgv] at hcontra
  have hv2 := congrArg GameState.Victory (Option.some.inj hcontra)
  rw [hvict, processTurn_Victory _ (NewPlayer 5 5) rfl] at hv2
  have hv3 : (animApply (moveApply gsC9 (NewPlayer 5 5)
      (NewPlayer 5 5).X (NewPlayer 5 5).Y)).Victory = false := rfl
  exact Bool.noConfusion (hv2.trans hv3)
